import Mathlib

/-!
Verification of the ESPN scoreboard exploration script
(`api_reasearch/espn_res.py`) against its specification.

The script is embedded shallowly:

* JSON documents become the inductive type `Json` (numbers are modelled as
  integers; the script never manipulates fractional numbers itself).
* Python's dynamically-typed dictionary/list accesses become total Lean
  functions in the `Except String` monad, where `.error` models a raised
  exception (`AttributeError`, `TypeError`, `KeyError`, `IndexError`)
  escaping the function, and `.ok lines` models a normal return that printed
  `lines` to standard output, one string per `print` call.
* `datetime.fromisoformat` (the pre-3.11 grammar the script's `Z`
  replacement is designed around) and `strftime` are embedded as pure
  functions on a `PyDateTime` record.
* The network is an oracle `net : HttpRequest → NetResult`; the fetcher
  returns its parsed result together with the list of requests it performed
  and the lines it printed.
* `json.dump(data, f, indent=2, ensure_ascii=False)` and `json.load` become
  `dumps`/`loads` on `Json`.
-/

namespace Espn

/-- A JSON value as the script sees it.  Numbers are modelled as integers:
the scoreboard script treats numbers opaquely, and modelling floating-point
literals is out of scope. -/
inductive Json where
  | null
  | bool (b : Bool)
  | num (n : Int)
  | str (s : String)
  | arr (xs : List Json)
  | obj (kvs : List (String × Json))
deriving Repr

/-- Python truthiness of a JSON value (`bool(x)`). -/
def truthy : Json → Bool
  | .null => false
  | .bool b => b
  | .num n => n != 0
  | .str s => s != ""
  | .arr xs => !xs.isEmpty
  | .obj kvs => !kvs.isEmpty

/-- Dictionary lookup on an object; `none` on a non-object or missing key. -/
def jlookup : Json → String → Option Json
  | .obj kvs, k => kvs.lookup k
  | _, _ => none

/-- Total counterpart of Python's `d.get(k, default)` on an object. -/
def jget (j : Json) (k : String) (d : Json) : Json := (jlookup j k).getD d

/-- Whether a value is a JSON object (a Python dict). -/
def isObj : Json → Bool
  | .obj _ => true
  | _ => false

/-- Decimal digit character for `n < 10` (callers reduce modulo 10). -/
def toDigitChar : Nat → Char
  | 0 => '0'
  | 1 => '1'
  | 2 => '2'
  | 3 => '3'
  | 4 => '4'
  | 5 => '5'
  | 6 => '6'
  | 7 => '7'
  | 8 => '8'
  | _ => '9'

/-- Numeric value of a decimal digit character. -/
def digitVal (c : Char) : Option Nat :=
  if '0' ≤ c && c ≤ '9' then some (c.toNat - 48) else none

/-- Decimal digits of `n`, most significant first, prepended to `acc`;
fuel-based so that it is structurally recursive (any `fuel ≥ n` computes
the true digits). -/
def natCharsAux : Nat → Nat → List Char → List Char
  | 0, n, acc => toDigitChar (n % 10) :: acc
  | fuel + 1, n, acc =>
    if n < 10 then toDigitChar n :: acc
    else natCharsAux fuel (n / 10) (toDigitChar (n % 10) :: acc)

/-- Decimal digit characters of a natural number, as Python's `str` writes it. -/
def natChars (n : Nat) : List Char := natCharsAux n n []

/-- Python `str` of a natural number. -/
def natStr (n : Nat) : String := String.mk (natChars n)

/-- Characters of Python's `str` of an integer. -/
def intChars (i : Int) : List Char :=
  if i < 0 then '-' :: natChars i.natAbs else natChars i.natAbs

/-- Python `str` of an integer. -/
def intStr (i : Int) : String := String.mk (intChars i)

mutual

/-- Python `repr` of a JSON value (string escaping inside `repr` is not
modelled; the script never prints containers holding quote characters). -/
def pyRepr : Json → String
  | .null => "None"
  | .bool true => "True"
  | .bool false => "False"
  | .num n => intStr n
  | .str s => "\x27" ++ s ++ "\x27"
  | .arr xs => "[" ++ pyReprList xs ++ "]"
  | .obj kvs => "\x7b" ++ pyReprMembers kvs ++ "\x7d"

/-- Comma-separated `repr`s of list elements. -/
def pyReprList : List Json → String
  | [] => ""
  | [x] => pyRepr x
  | x :: y :: rest => pyRepr x ++ ", " ++ pyReprList (y :: rest)

/-- Comma-separated `key: value` `repr`s of dict members. -/
def pyReprMembers : List (String × Json) → String
  | [] => ""
  | [(k, v)] => "\x27" ++ k ++ "\x27: " ++ pyRepr v
  | (k, v) :: m :: rest => "\x27" ++ k ++ "\x27: " ++ pyRepr v ++ ", " ++ pyReprMembers (m :: rest)

end

/-- Python `str()` as used by f-string interpolation. -/
def pyStr : Json → String
  | .str s => s
  | j => pyRepr j

/-- Python `d.get(k, default)`: raises `AttributeError` on a non-dict. -/
def pyGetD (j : Json) (k : String) (d : Json) : Except String Json :=
  match j with
  | .obj kvs => .ok ((kvs.lookup k).getD d)
  | _ => .error "AttributeError: object has no attribute get"

/-- Python `d.keys()` (as a list, in insertion order): raises on a non-dict. -/
def pyKeys : Json → Except String (List String)
  | .obj kvs => .ok (kvs.map (fun p => p.1))
  | _ => .error "AttributeError: object has no attribute keys"

/-- Python `d[k]` with a string key. -/
def pySubscript (j : Json) (k : String) : Except String Json :=
  match j with
  | .obj kvs =>
    match kvs.lookup k with
    | some v => .ok v
    | none => .error "KeyError"
  | _ => .error "TypeError: value is not subscriptable with a string"

/-- Whether the character list `needle` occurs inside `hay`. -/
def containsSub (hay needle : List Char) : Bool :=
  needle.isPrefixOf hay ||
    (match hay with
     | [] => false
     | _ :: rest => containsSub rest needle)

/-- Python `k in j` for a string `k`: key test on dicts, membership on lists,
substring test on strings, `TypeError` otherwise. -/
def pyContains (j : Json) (k : String) : Except String Bool :=
  match j with
  | .obj kvs => .ok (kvs.any (fun p => p.1 == k))
  | .arr xs => .ok (xs.any (fun x => match x with | .str s => s == k | _ => false))
  | .str s => .ok (containsSub s.data k.data)
  | _ => .error "TypeError: argument is not iterable"

/-- Python `x[0]`. -/
def pyIndex0 : Json → Except String Json
  | .arr (x :: _) => .ok x
  | .arr [] => .error "IndexError: list index out of range"
  | .str s =>
    match s.data with
    | c :: _ => .ok (.str (String.mk [c]))
    | [] => .error "IndexError: string index out of range"
  | .obj _ => .error "KeyError: 0"
  | _ => .error "TypeError: value is not subscriptable"

/-- Python `len(x)`. -/
def pyLen : Json → Except String Nat
  | .arr xs => .ok xs.length
  | .str s => .ok s.length
  | .obj kvs => .ok kvs.length
  | _ => .error "TypeError: value has no len"

/-- Python iteration (`for x in v`): elements of a list, characters of a
string, keys of a dict; `TypeError` otherwise. -/
def pyIter : Json → Except String (List Json)
  | .arr xs => .ok xs
  | .str s => .ok (s.data.map (fun c => .str (String.mk [c])))
  | .obj kvs => .ok (kvs.map (fun p => .str p.1))
  | _ => .error "TypeError: value is not iterable"

/-- Condition of the competitor-selecting generator:
`c.get(\x27homeAway\x27) == tag`. -/
def homeAwayIs (tag : String) (c : Json) : Bool :=
  match jlookup c "homeAway" with
  | some (.str s) => s == tag
  | _ => false

/-- Python `next((c for c in cs if c.get(\x27homeAway\x27) == tag), dict())`:
scans lazily, raising `AttributeError` if a non-dict element is reached
before a match, and returning an empty dict when nothing matches. -/
def pyFirstWhere (tag : String) : List Json → Except String Json
  | [] => .ok (.obj [])
  | c :: rest =>
    match c with
    | .obj _ => if homeAwayIs tag c then .ok c else pyFirstWhere tag rest
    | _ => .error "AttributeError: object has no attribute get"

/-! ## Date parsing and formatting (lines 112-116 of the script) -/

/-- Gregorian leap year test, as `datetime` validates dates. -/
def isLeapYear (y : Nat) : Bool := (y % 4 == 0 && y % 100 != 0) || y % 400 == 0

/-- Number of days in a month. -/
def daysInMonth (y m : Nat) : Nat :=
  if m = 2 then (if isLeapYear y then 29 else 28)
  else if m = 4 || m = 6 || m = 9 || m = 11 then 30
  else 31

/-- The fields of a parsed `datetime` that the script's `strftime` format
consumes (the timezone offset is validated during parsing but not stored,
because `strftime` renders wall-clock fields only). -/
structure PyDateTime where
  year : Nat
  month : Nat
  day : Nat
  hour : Nat
  minute : Nat
  second : Nat
deriving Repr, DecidableEq

/-- Consume exactly `c`. -/
def expectChar (c : Char) : List Char → Option (List Char)
  | x :: rest => if x = c then some rest else none
  | [] => none

/-- Parse exactly two decimal digits. -/
def parse2 : List Char → Option (Nat × List Char)
  | c1 :: c2 :: rest =>
    match digitVal c1, digitVal c2 with
    | some d1, some d2 => some (d1 * 10 + d2, rest)
    | _, _ => none
  | _ => none

/-- Parse exactly four decimal digits. -/
def parse4 : List Char → Option (Nat × List Char)
  | c1 :: c2 :: c3 :: c4 :: rest =>
    match digitVal c1, digitVal c2, digitVal c3, digitVal c4 with
    | some d1, some d2, some d3, some d4 =>
      some (((d1 * 10 + d2) * 10 + d3) * 10 + d4, rest)
    | _, _, _, _ => none
  | _ => none

/-- Longest leading run of decimal digits, with the remainder. -/
def takeDigits : List Char → List Char × List Char
  | [] => ([], [])
  | c :: rest =>
    if c.isDigit then
      let p := takeDigits rest
      (c :: p.1, p.2)
    else ([], c :: rest)

/-- Fractional part of an ISO time: absent, or a dot followed by exactly
three or six digits (the pre-3.11 `fromisoformat` grammar). -/
def parseFraction (cs : List Char) : Option (List Char) :=
  match cs with
  | '.' :: r =>
    let p := takeDigits r
    if p.1.length = 3 || p.1.length = 6 then some p.2 else none
  | _ => some cs

/-- Offset after its sign: `HH:MM[:SS[.ffffff]]`; yields its magnitude in
seconds. -/
def parseOffsetTail (cs : List Char) : Option (Nat × List Char) :=
  match parse2 cs with
  | none => none
  | some (oh, r1) =>
    match expectChar ':' r1 with
    | none => none
    | some r2 =>
      match parse2 r2 with
      | none => none
      | some (om, r3) =>
        match r3 with
        | ':' :: r4 =>
          match parse2 r4 with
          | none => none
          | some (os, r5) =>
            match r5 with
            | '.' :: r6 =>
              let p := takeDigits r6
              if p.1.length = 6 then some (oh * 3600 + om * 60 + os, p.2) else none
            | _ => some (oh * 3600 + om * 60 + os, r5)
        | _ => some (oh * 3600 + om * 60, r3)

/-- Trailing timezone offset: nothing, or a signed `HH:MM[:SS[.ffffff]]`
whose magnitude must stay below 24 hours; nothing may follow it. -/
def finishOffset (cs : List Char) : Option Unit :=
  match cs with
  | [] => some ()
  | c :: r =>
    if c = '+' || c = '-' then
      match parseOffsetTail r with
      | some (off, rest) => if rest.isEmpty && off < 86400 then some () else none
      | none => none
    else none

/-- Time-of-day part `HH[:MM[:SS[.fff[fff]]]]` with optional offset, as the
pre-3.11 `fromisoformat` accepts after the date separator. -/
def parseTimeAndOffset (cs : List Char) : Option (Nat × Nat × Nat) :=
  match parse2 cs with
  | none => none
  | some (h, r1) =>
    match expectChar ':' r1 with
    | none =>
      match finishOffset r1 with
      | none => none
      | some _ => some (h, 0, 0)
    | some r2 =>
      match parse2 r2 with
      | none => none
      | some (mi, r3) =>
        match expectChar ':' r3 with
        | none =>
          match finishOffset r3 with
          | none => none
          | some _ => some (h, mi, 0)
        | some r4 =>
          match parse2 r4 with
          | none => none
          | some (s, r5) =>
            match parseFraction r5 with
            | none => none
            | some r6 =>
              match finishOffset r6 with
              | none => none
              | some _ => some (h, mi, s)

/-- Model of `datetime.fromisoformat` (the `YYYY-MM-DD[*HH[:MM[:SS[.fff[fff]]]]
[±HH:MM[:SS[.ffffff]]]]` grammar of Python 3.7-3.10, which is the grammar the
script's `Z`-substitution works around), with `datetime`'s range validation. -/
def fromisoformat (s : String) : Option PyDateTime :=
  match parse4 s.data with
  | none => none
  | some (y, r1) =>
    match expectChar '-' r1 with
    | none => none
    | some r2 =>
      match parse2 r2 with
      | none => none
      | some (mo, r3) =>
        match expectChar '-' r3 with
        | none => none
        | some r4 =>
          match parse2 r4 with
          | none => none
          | some (d, r5) =>
            match
              (match r5 with
               | [] => some (0, 0, 0)
               | _sep :: tr => parseTimeAndOffset tr) with
            | none => none
            | some (h, mi, sec) =>
              if 1 ≤ y && 1 ≤ mo && mo ≤ 12 && 1 ≤ d && d ≤ daysInMonth y mo
                  && h ≤ 23 && mi ≤ 59 && sec ≤ 59 then
                some ⟨y, mo, d, h, mi, sec⟩
              else none

/-- Python `s.replace("Z", "+00:00")` (single-character pattern, so a
per-character substitution). -/
def replaceZ : List Char → List Char
  | [] => []
  | c :: rest => (if c = 'Z' then ['+', '0', '0', ':', '0', '0'] else [c]) ++ replaceZ rest

/-- The hour in the 12-hour clock, as `strftime` field `%I` renders it. -/
def hour12 (h : Nat) : Nat := if h % 12 = 0 then 12 else h % 12

/-- Two-digit zero-padded decimal rendering. -/
def pad2 (n : Nat) : List Char := [toDigitChar (n / 10 % 10), toDigitChar (n % 10)]

/-- Four-digit zero-padded decimal rendering. -/
def pad4 (n : Nat) : List Char :=
  [toDigitChar (n / 1000 % 10), toDigitChar (n / 100 % 10),
   toDigitChar (n / 10 % 10), toDigitChar (n % 10)]

/-- The script's `dt.strftime("%Y-%m-%d %I:%M %p")`. -/
def strftimeUS (dt : PyDateTime) : String :=
  String.mk (pad4 dt.year) ++ "-" ++ String.mk (pad2 dt.month) ++ "-" ++
    String.mk (pad2 dt.day) ++ " " ++ String.mk (pad2 (hour12 dt.hour)) ++ ":" ++
    String.mk (pad2 dt.minute) ++ " " ++ (if dt.hour < 12 then "AM" else "PM")

/-- Lines 112-116 of the script: substitute `Z`, parse, format; on any
failure (including a non-string `date`, whose `.replace` raises inside the
bare `except`) fall back to the original value. -/
def formatGameDate (date : Json) : Json :=
  match date with
  | .str s =>
    match fromisoformat (String.mk (replaceZ s.data)) with
    | some dt => .str (strftimeUS dt)
    | none => date
  | _ => date

/-! ## Summarizer (`print_game_summary`, lines 79-134) -/

/-- Eighty equals signs, the banner rule the script prints. -/
def eq80 : String := String.mk (List.replicate 80 '=')

/-- Notice printed when the response is falsy or has no `events` key. -/
def noGamesNotice : String := "⚠️  No games found in response"

/-- Notice printed when `events` is present but empty. -/
def emptyWeekNotice : String := "No games found for this week."

/-- Loop body of `print_game_summary` for one event (lines 106-134): the
whole six-print block is guarded by the competition/competitor checks. -/
def summarizeEvent (idx : Nat) (event : Json) : Except String (List String) := do
  let game_id ← pyGetD event "id" (.str "Unknown")
  let _name ← pyGetD event "name" (.str "Unknown matchup")
  let date ← pyGetD event "date" (.str "Unknown date")
  let st1 ← pyGetD event "status" (.obj [])
  let st2 ← pyGetD st1 "type" (.obj [])
  let status ← pyGetD st2 "description" (.str "Unknown")
  let formatted := formatGameDate date
  let competitions ← pyGetD event "competitions" (.arr [])
  if truthy competitions then do
    let comp0 ← pyIndex0 competitions
    let competitors ← pyGetD comp0 "competitors" (.arr [])
    let n ← pyLen competitors
    if 2 ≤ n then do
      let cs ← pyIter competitors
      let home_team ← pyFirstWhere "home" cs
      let away_team ← pyFirstWhere "away" cs
      let ht ← pyGetD home_team "team" (.obj [])
      let home_name ← pyGetD ht "displayName" (.str "Unknown")
      let awt ← pyGetD away_team "team" (.obj [])
      let away_name ← pyGetD awt "displayName" (.str "Unknown")
      pure ["Game " ++ natStr idx ++ ":",
            "  ID: " ++ pyStr game_id,
            "  Matchup: " ++ pyStr away_name ++ " @ " ++ pyStr home_name,
            "  Date: " ++ pyStr formatted,
            "  Status: " ++ pyStr status,
            ""]
    else pure []
  else pure []

/-- The `enumerate(events, 1)` loop of `print_game_summary`. -/
def summarizeEvents : Nat → List Json → Except String (List String)
  | _, [] => .ok []
  | idx, e :: rest => do
    let block ← summarizeEvent idx e
    let tail ← summarizeEvents (idx + 1) rest
    pure (block ++ tail)

/-- Model of `print_game_summary`: the list of printed lines, or the raised
exception. -/
def print_game_summary (data : Json) : Except String (List String) := do
  if truthy data = false then pure [noGamesNotice]
  else do
    let hasEvents ← pyContains data "events"
    if hasEvents = false then pure [noGamesNotice]
    else do
      let events ← pyGetD data "events" (.arr [])
      let season ← pyGetD data "season" (.obj [])
      let week ← pyGetD data "week" (.obj [])
      let seasonYear ← pyGetD season "year" (.str "Unknown")
      let weekNumber ← pyGetD week "number" (.str "Unknown")
      let banner := [eq80, "📅 NFL SCHEDULE",
                     "   Season: " ++ pyStr seasonYear,
                     "   Week: " ++ pyStr weekNumber,
                     eq80, ""]
      if truthy events = false then pure (banner ++ [emptyWeekNotice])
      else do
        let evs ← pyIter events
        let blocks ← summarizeEvents 1 evs
        pure (banner ++ blocks)

/-! ### Total reference renderings the summarizer theorems compare against -/

/-- First element of a nonempty array (defaulting, used only under shape
hypotheses that make the default unreachable). -/
def first0 : Json → Json
  | .arr (x :: _) => x
  | _ => .obj []

/-- First competitor matching `homeAway == tag`, defaulting to an empty dict. -/
def firstWhere (tag : String) : List Json → Json
  | [] => .obj []
  | c :: rest => if homeAwayIs tag c then c else firstWhere tag rest

/-- Whether the event's first competition carries at least two competitors,
the condition under which the script prints the event's block. -/
def qualifies (e : Json) : Bool :=
  let comps := jget e "competitions" (.arr [])
  truthy comps &&
    (match comps with
     | .arr (c0 :: _) =>
       (match jget c0 "competitors" (.arr []) with
        | .arr xs => 2 ≤ xs.length
        | _ => false)
     | _ => false)

/-- The numbered header line of a game block, `Game {idx}:`. -/
def gameLine (idx : Nat) : String := "Game " ++ natStr idx ++ ":"

/-- The six lines the script prints for a qualifying event. -/
def renderBlock (idx : Nat) (e : Json) : List String :=
  let comps := jget e "competitions" (.arr [])
  let competitors :=
    match jget (first0 comps) "competitors" (.arr []) with
    | .arr xs => xs
    | _ => []
  let home_name := jget (jget (firstWhere "home" competitors) "team" (.obj [])) "displayName" (.str "Unknown")
  let away_name := jget (jget (firstWhere "away" competitors) "team" (.obj [])) "displayName" (.str "Unknown")
  [gameLine idx,
   "  ID: " ++ pyStr (jget e "id" (.str "Unknown")),
   "  Matchup: " ++ pyStr away_name ++ " @ " ++ pyStr home_name,
   "  Date: " ++ pyStr (formatGameDate (jget e "date" (.str "Unknown date"))),
   "  Status: " ++ pyStr (jget (jget (jget e "status" (.obj [])) "type" (.obj [])) "description" (.str "Unknown")),
   ""]

/-- Reference rendering of the event loop: a block for each qualifying
event, numbered by its position in the original sequence. -/
def renderEvents : Nat → List Json → List String
  | _, [] => []
  | idx, e :: rest => (if qualifies e then renderBlock idx e else []) ++ renderEvents (idx + 1) rest

/-- The six banner lines printed before the per-event blocks. -/
def bannerLines (data : Json) : List String :=
  [eq80, "📅 NFL SCHEDULE",
   "   Season: " ++ pyStr (jget (jget data "season" (.obj [])) "year" (.str "Unknown")),
   "   Week: " ++ pyStr (jget (jget data "week" (.obj [])) "number" (.str "Unknown")),
   eq80, ""]

/-- Shape condition on the competitor list making the generator scans and
chained `get`s run without exceptions. -/
def competitorsOk (xs : List Json) : Bool :=
  xs.all isObj &&
    (match jlookup (firstWhere "home" xs) "team" with
     | none => true
     | some t => isObj t) &&
    (match jlookup (firstWhere "away" xs) "team" with
     | none => true
     | some t => isObj t)

/-- Shape condition on the `status` chain of an event. -/
def statusOk (e : Json) : Bool :=
  match jlookup e "status" with
  | none => true
  | some st =>
    isObj st &&
      (match jlookup st "type" with
       | none => true
       | some t => isObj t)

/-- Shape condition under which the script's loop body cannot raise on an
event: the event is a dict whose `status`/`competitions`/`competitors`
fields, where present and reached, have the types the script indexes into. -/
def eventOk (e : Json) : Bool :=
  isObj e && statusOk e &&
    (match jlookup e "competitions" with
     | none => true
     | some comps =>
       !truthy comps ||
         (match comps with
          | .arr (c0 :: _) =>
            isObj c0 &&
              (match jlookup c0 "competitors" with
               | none => true
               | some (.arr xs) => xs.length < 2 || competitorsOk xs
               | some (.str s) => s.length < 2
               | some (.obj kvs) => kvs.length < 2
               | some _ => false)
          | _ => false))

/-- Shape condition for the banner: `season` and `week`, when present, are
dicts. -/
def bannerOk (data : Json) : Bool :=
  (match jlookup data "season" with
   | none => true
   | some s => isObj s) &&
    (match jlookup data "week" with
     | none => true
     | some w => isObj w)

/-! ## Inspector (`inspect_data_structure`, lines 137-174) -/

/-- Python `repr` of a list of strings, as `print(f"... \x7blist(d.keys())\x7d")`
renders key lists. -/
def reprKeyList (ks : List String) : String :=
  "[" ++ String.intercalate ", " (ks.map (fun k => "\x27" ++ k ++ "\x27")) ++ "]"

/-- Model of `inspect_data_structure`: the printed lines, or the raised
exception. -/
def inspect_data_structure (data : Json) : Except String (List String) := do
  let keys ← pyKeys data
  let hasEvents ← pyContains data "events"
  let evSection ←
    if hasEvents then do
      let ev ← pySubscript data "events"
      if truthy ev then do
        let event ← pyIndex0 ev
        let ekeys ← pyKeys event
        let hasComps ← pyContains event "competitions"
        let compSection ←
          if hasComps then do
            let comps ← pySubscript event "competitions"
            if truthy comps then do
              let comp ← pyIndex0 comps
              let ckeys ← pyKeys comp
              let hasCompetitors ← pyContains comp "competitors"
              let cSection ←
                if hasCompetitors then do
                  let competitors ← pySubscript comp "competitors"
                  if truthy competitors then do
                    let competitor ← pyIndex0 competitors
                    let pkeys ← pyKeys competitor
                    let hasTeam ← pyContains competitor "team"
                    let tSection ←
                      if hasTeam then do
                        let team ← pySubscript competitor "team"
                        let tkeys ← pyKeys team
                        pure ["  Team keys: " ++ reprKeyList tkeys, ""]
                      else pure []
                    pure (["  Competitor keys: " ++ reprKeyList pkeys, ""] ++ tSection)
                  else pure []
                else pure []
              pure (["  Competition keys: " ++ reprKeyList ckeys, ""] ++ cSection)
            else pure []
          else pure []
        pure (["Sample event structure (first game):",
               "  Event keys: " ++ reprKeyList ekeys, ""] ++ compSection)
      else pure []
    else pure []
  pure ([eq80, "🔍 DATA STRUCTURE INSPECTION", eq80, ""] ++
        ["Top-level keys available:"] ++ keys.map (fun k => "  - " ++ k) ++ [""] ++
        evSection)

/-- Keys of an object value, defaulting to none. -/
def objKeys : Json → List String
  | .obj kvs => kvs.map (fun p => p.1)
  | _ => []

/-- Reference: the team-level lines the inspector reaches. -/
def teamSection (competitor : Json) : List String :=
  match jlookup competitor "team" with
  | some team => ["  Team keys: " ++ reprKeyList (objKeys team), ""]
  | none => []

/-- Reference: the competitor-level lines the inspector reaches. -/
def competitorSection (comp : Json) : List String :=
  match jlookup comp "competitors" with
  | some cs =>
    if truthy cs then
      ["  Competitor keys: " ++ reprKeyList (objKeys (first0 cs)), ""] ++ teamSection (first0 cs)
    else []
  | none => []

/-- Reference: the competition-level lines the inspector reaches. -/
def competitionSection (event : Json) : List String :=
  match jlookup event "competitions" with
  | some comps =>
    if truthy comps then
      ["  Competition keys: " ++ reprKeyList (objKeys (first0 comps)), ""] ++
        competitorSection (first0 comps)
    else []
  | none => []

/-- Reference: the event-level lines the inspector reaches. -/
def eventSection (data : Json) : List String :=
  match jlookup data "events" with
  | some ev =>
    if truthy ev then
      ["Sample event structure (first game):",
       "  Event keys: " ++ reprKeyList (objKeys (first0 ev)), ""] ++
        competitionSection (first0 ev)
    else []
  | none => []

/-- Reference rendering of the inspector output: exactly the levels whose
parent field exists and is non-empty. -/
def inspectReached (data : Json) : List String :=
  [eq80, "🔍 DATA STRUCTURE INSPECTION", eq80, ""] ++
    ["Top-level keys available:"] ++ (objKeys data).map (fun k => "  - " ++ k) ++ [""] ++
    eventSection data

/-- Shape condition making the inspector's descent well-typed: each level
that the descent actually reaches is a dict (inside a list where the script
indexes `[0]`), with no constraint on levels the descent never reaches. -/
def inspectSafe (data : Json) : Bool :=
  isObj data &&
    (match jlookup data "events" with
     | none => true
     | some ev =>
       !truthy ev ||
         (match ev with
          | .arr (e :: _) =>
            isObj e &&
              (match jlookup e "competitions" with
               | none => true
               | some comps =>
                 !truthy comps ||
                   (match comps with
                    | .arr (c :: _) =>
                      isObj c &&
                        (match jlookup c "competitors" with
                         | none => true
                         | some cs =>
                           !truthy cs ||
                             (match cs with
                              | .arr (p :: _) =>
                                isObj p &&
                                  (match jlookup p "team" with
                                   | none => true
                                   | some t => isObj t)
                              | _ => false))
                    | _ => false))
          | _ => false))

/-! ## Fetcher (`fetch_nfl_scoreboard`, lines 18-55) -/

/-- An outgoing HTTP request: the URL and the query parameters. -/
structure HttpRequest where
  url : String
  params : List (String × Int)
deriving Repr

/-- An HTTP response delivered by the transport. -/
structure NetResponse where
  status : Nat
  body : Json
deriving Repr

/-- The outcome of one `requests.get` call: a response, or a transport
failure (connection error or timeout, both `requests.exceptions.RequestException`). -/
inductive NetResult where
  | response (r : NetResponse)
  | transportError (msg : String)
deriving Repr

/-- The fixed scoreboard endpoint. -/
def scoreboardBaseUrl : String :=
  "https://site.api.espn.com/apis/site/v2/sports/football/nfl/scoreboard"

/-- Query parameters: a fixed `limit`, plus `week` and `seasontype` exactly
when `week` is truthy (lines 31-38). -/
def buildParams (week : Option Int) : List (String × Int) :=
  [("limit", 100)] ++
    (match week with
     | some w => if w != 0 then [("week", w), ("seasontype", 2)] else []
     | none => [])

/-- The single request the fetcher performs. -/
def scoreboardRequest (week : Option Int) : HttpRequest :=
  ⟨scoreboardBaseUrl, buildParams week⟩

/-- Python `repr` of the params dict, as the progress line prints it. -/
def reprParams (ps : List (String × Int)) : String :=
  "\x7b" ++ String.intercalate ", " (ps.map (fun p => "\x27" ++ p.1 ++ "\x27: " ++ intStr p.2)) ++ "\x7d"

/-- Message of the `requests.HTTPError` that `raise_for_status` raises
(abbreviated to the status and its class; the script only prints it). -/
def httpErrorMsg (status : Nat) : String :=
  intStr status ++ (if status < 500 then " Client Error" else " Server Error")

/-- The progress lines printed before the network call (lines 40-43). -/
def fetchIntro (req : HttpRequest) : List String :=
  ["🏈 Fetching NFL games...",
   "   URL: " ++ scoreboardBaseUrl,
   "   Params: " ++ reprParams req.params,
   ""]

/-- The error line printed when the request raises (line 54). -/
def fetchErrorLine (msg : String) : String := "❌ Error fetching data: " ++ msg

/-- The success line printed after a good response (line 50). -/
def fetchSuccessLine : String := "✅ Successfully fetched data from ESPN API"

/-- Model of `fetch_nfl_scoreboard`: given the transport as an oracle,
returns the parsed body (or `none` on failure), the list of requests
performed, and the printed lines.  The unused `year` parameter mirrors the
source, which never reads it. -/
def fetch_nfl_scoreboard (year : Int) (week : Option Int)
    (net : HttpRequest → NetResult) :
    Option Json × List HttpRequest × List String :=
  let _ := year
  let req := scoreboardRequest week
  match net req with
  | .transportError msg =>
    (none, [req], fetchIntro req ++ [fetchErrorLine msg])
  | .response r =>
    if 400 ≤ r.status ∧ r.status < 600 then
      (none, [req], fetchIntro req ++ [fetchErrorLine (httpErrorMsg r.status)])
    else
      (some r.body, [req], fetchIntro req ++ [fetchSuccessLine])

/-! ## Persister (`save_raw_response`, lines 58-76) -/

/-- Lowercase hexadecimal digit character for `n < 16`. -/
def hexDigitChar : Nat → Char
  | 0 => '0'
  | 1 => '1'
  | 2 => '2'
  | 3 => '3'
  | 4 => '4'
  | 5 => '5'
  | 6 => '6'
  | 7 => '7'
  | 8 => '8'
  | 9 => '9'
  | 10 => 'a'
  | 11 => 'b'
  | 12 => 'c'
  | 13 => 'd'
  | 14 => 'e'
  | _ => 'f'

/-- Opening brace character. -/
def lbrace : Char := Char.ofNat 123

/-- Closing brace character. -/
def rbrace : Char := Char.ofNat 125

/-- JSON string escaping with `ensure_ascii=False`: only the quote, the
backslash and control characters are escaped (named escapes for the five
standard ones, `\u00XX` otherwise); everything else is written literally. -/
def escChar (c : Char) : List Char :=
  if c = '"' then ['\\', '"']
  else if c = '\\' then ['\\', '\\']
  else if c = Char.ofNat 8 then ['\\', 'b']
  else if c = Char.ofNat 9 then ['\\', 't']
  else if c = Char.ofNat 10 then ['\\', 'n']
  else if c = Char.ofNat 12 then ['\\', 'f']
  else if c = Char.ofNat 13 then ['\\', 'r']
  else if c.toNat < 32 then
    ['\\', 'u', '0', '0', hexDigitChar (c.toNat / 16), hexDigitChar (c.toNat % 16)]
  else [c]

/-- The newline plus two-space-per-level indentation `json.dump(indent=2)`
writes between items. -/
def nlIndent (lvl : Nat) : List Char := '\n' :: List.replicate (2 * lvl) ' '

/-- A JSON-quoted, escaped string literal. -/
def dumpStr (s : String) : List Char := '"' :: (s.data.flatMap escChar ++ ['"'])

mutual

/-- Characters `json.dump(data, f, indent=2, ensure_ascii=False)` writes for
a value at indentation level `lvl`. -/
def dumpVal : Json → Nat → List Char
  | .null, _ => ['n', 'u', 'l', 'l']
  | .bool true, _ => ['t', 'r', 'u', 'e']
  | .bool false, _ => ['f', 'a', 'l', 's', 'e']
  | .num n, _ => intChars n
  | .str s, _ => dumpStr s
  | .arr [], _ => ['[', ']']
  | .arr (x :: xs), lvl =>
    '[' :: (nlIndent (lvl + 1) ++ dumpVal x (lvl + 1) ++ dumpArrTail xs (lvl + 1) ++
      nlIndent lvl ++ [']'])
  | .obj [], _ => [Char.ofNat 123, Char.ofNat 125]
  | .obj (kv :: kvs), lvl =>
    Char.ofNat 123 :: (nlIndent (lvl + 1) ++ dumpMember kv (lvl + 1) ++
      dumpObjTail kvs (lvl + 1) ++ nlIndent lvl ++ [Char.ofNat 125])

/-- One `"key": value` member. -/
def dumpMember : String × Json → Nat → List Char
  | (k, v), lvl => dumpStr k ++ ':' :: ' ' :: dumpVal v lvl

/-- Remaining array items, each preceded by a comma and fresh indentation. -/
def dumpArrTail : List Json → Nat → List Char
  | [], _ => []
  | x :: xs, lvl => ',' :: (nlIndent lvl ++ dumpVal x lvl ++ dumpArrTail xs lvl)

/-- Remaining object members, each preceded by a comma and fresh indentation. -/
def dumpObjTail : List (String × Json) → Nat → List Char
  | [], _ => []
  | kv :: kvs, lvl => ',' :: (nlIndent lvl ++ dumpMember kv lvl ++ dumpObjTail kvs lvl)

end

/-- The file contents `save_raw_response` writes. -/
def dumps (j : Json) : String := String.mk (dumpVal j 0)

/-- Model of `save_raw_response`: the path written under the output
directory and the serialized file contents. -/
def save_raw_response (data : Json) (filename : String) : String × String :=
  ("sample_responses/" ++ filename, dumps data)

/-- JSON whitespace test. -/
def isJsonWs (c : Char) : Bool := c = ' ' || c = '\t' || c = '\n' || c = '\r'

/-- Drop leading JSON whitespace. -/
def skipWs : List Char → List Char
  | [] => []
  | c :: rest => if isJsonWs c then skipWs rest else c :: rest

/-- Value of a named escape character. -/
def unescapeChar : Char → Option Char
  | '"' => some '"'
  | '\\' => some '\\'
  | '/' => some '/'
  | 'b' => some (Char.ofNat 8)
  | 'f' => some (Char.ofNat 12)
  | 'n' => some '\n'
  | 'r' => some '\r'
  | 't' => some '\t'
  | _ => none

/-- Value of a hexadecimal digit character. -/
def hexVal (c : Char) : Option Nat :=
  if '0' ≤ c && c ≤ '9' then some (c.toNat - 48)
  else if 'a' ≤ c && c ≤ 'f' then some (c.toNat - 87)
  else if 'A' ≤ c && c ≤ 'F' then some (c.toNat - 55)
  else none

/-- Body of a JSON string after the opening quote: content up to the closing
quote, handling escapes; rejects raw control characters (`json.loads` is
strict) and, as a model restriction, surrogate `\u` escapes. -/
def parseStringBody : List Char → Option (List Char × List Char)
  | [] => none
  | c :: rest =>
    if c = '"' then some ([], rest)
    else if c = '\\' then
      match rest with
      | [] => none
      | e :: rest2 =>
        if e = 'u' then
          match rest2 with
          | h1 :: h2 :: h3 :: h4 :: rest3 =>
            match hexVal h1, hexVal h2, hexVal h3, hexVal h4 with
            | some v1, some v2, some v3, some v4 =>
              let n := ((v1 * 16 + v2) * 16 + v3) * 16 + v4
              if n < 55296 || 57343 < n then
                match parseStringBody rest3 with
                | some (content, r) => some (Char.ofNat n :: content, r)
                | none => none
              else none
            | _, _, _, _ => none
          | _ => none
        else
          match unescapeChar e with
          | some ch =>
            match parseStringBody rest2 with
            | some (content, r) => some (ch :: content, r)
            | none => none
          | none => none
    else if c.toNat < 32 then none
    else
      match parseStringBody rest with
      | some (content, r) => some (c :: content, r)
      | none => none

/-- Numeric value of a digit run. -/
def digitsToNat (ds : List Char) : Nat := ds.foldl (fun a c => a * 10 + (c.toNat - 48)) 0

/-- Whether the remainder begins a fractional or exponent part (floats are
outside this integer-numbered model of `json.loads`). -/
def floatStart : List Char → Bool
  | c :: _ => c = '.' || c = 'e' || c = 'E'
  | [] => false

/-- A JSON integer literal after any sign: a digit run without a redundant
leading zero, not followed by a fraction or exponent. -/
def parseIntDigits (cs : List Char) : Option (Nat × List Char) :=
  let p := takeDigits cs
  match p.1 with
  | [] => none
  | d :: ds =>
    if floatStart p.2 then none
    else if d = '0' && !ds.isEmpty then none
    else some (digitsToNat (d :: ds), p.2)

mutual

/-- Fuel-indexed model of the `json.loads` value scanner. -/
def parseVal : Nat → List Char → Option (Json × List Char)
  | 0, _ => none
  | fuel + 1, cs =>
    match skipWs cs with
    | [] => none
    | c :: r =>
      if c = lbrace then parseObjBody fuel r
      else if c.isDigit then
        match parseIntDigits (c :: r) with
        | some (n, rest) => some (.num (n : Int), rest)
        | none => none
      else
        match c, r with
        | '[', _ => parseArrBody fuel r
        | '"', _ =>
          match parseStringBody r with
          | some (content, rest) => some (.str (String.mk content), rest)
          | none => none
        | 't', 'r' :: 'u' :: 'e' :: r2 => some (.bool true, r2)
        | 'f', 'a' :: 'l' :: 's' :: 'e' :: r2 => some (.bool false, r2)
        | 'n', 'u' :: 'l' :: 'l' :: r2 => some (.null, r2)
        | '-', _ =>
          match parseIntDigits r with
          | some (n, rest) => some (.num (-(n : Int)), rest)
          | none => none
        | _, _ => none

/-- After `[`: an empty array, or a first value and the comma-separated tail. -/
def parseArrBody : Nat → List Char → Option (Json × List Char)
  | 0, _ => none
  | fuel + 1, cs =>
    match skipWs cs with
    | [] => none
    | c :: r =>
      if c = ']' then some (.arr [], r)
      else
        match parseVal fuel (c :: r) with
        | some (x, rest) =>
          match parseArrTail fuel rest with
          | some (xs, rest2) => some (.arr (x :: xs), rest2)
          | none => none
        | none => none

/-- After an array item: a comma and another item, or the closing bracket. -/
def parseArrTail : Nat → List Char → Option (List Json × List Char)
  | 0, _ => none
  | fuel + 1, cs =>
    match skipWs cs with
    | [] => none
    | c :: r =>
      if c = ']' then some ([], r)
      else if c = ',' then
        match parseVal fuel r with
        | some (x, rest) =>
          match parseArrTail fuel rest with
          | some (xs, rest2) => some (x :: xs, rest2)
          | none => none
        | none => none
      else none

/-- After `\x7b`: an empty object, or a first member and the tail. -/
def parseObjBody : Nat → List Char → Option (Json × List Char)
  | 0, _ => none
  | fuel + 1, cs =>
    match skipWs cs with
    | [] => none
    | c :: r =>
      if c = rbrace then some (.obj [], r)
      else if c = '"' then
        match parseStringBody r with
        | some (k, r2) =>
          match skipWs r2 with
          | [] => none
          | c2 :: r3 =>
            if c2 = ':' then
              match parseVal fuel r3 with
              | some (v, r4) =>
                match parseObjTail fuel r4 with
                | some (kvs, r5) => some (.obj ((String.mk k, v) :: kvs), r5)
                | none => none
              | none => none
            else none
        | none => none
      else none

/-- After an object member: a comma and another member, or the closing brace. -/
def parseObjTail : Nat → List Char → Option (List (String × Json) × List Char)
  | 0, _ => none
  | fuel + 1, cs =>
    match skipWs cs with
    | [] => none
    | c :: r =>
      if c = rbrace then some ([], r)
      else if c = ',' then
        match skipWs r with
        | [] => none
        | c2 :: r2 =>
          if c2 = '"' then
            match parseStringBody r2 with
            | some (k, r3) =>
              match skipWs r3 with
              | [] => none
              | c3 :: r4 =>
                if c3 = ':' then
                  match parseVal fuel r4 with
                  | some (v, r5) =>
                    match parseObjTail fuel r5 with
                    | some (kvs, r6) => some ((String.mk k, v) :: kvs, r6)
                    | none => none
                  | none => none
                else none
            | none => none
          else none
      else none

end

/-- Model of `json.load` on the file contents: parse one value, allow only
trailing whitespace. -/
def loads (s : String) : Option Json :=
  match parseVal (s.data.length + 1) s.data with
  | some (j, rest) => if (skipWs rest).isEmpty then some j else none
  | none => none

/-! ## Orchestrator (`main`, lines 177-212) -/

/-- One observable step of `main`: a printed line, or a call into one of
the later pipeline stages (whose own output is modelled by their own
functions). -/
inductive MainStep where
  | printLine (s : String)
  | saveRaw (data : Json) (filename : String)
  | summarize (data : Json)
  | inspect (data : Json)

/-- Whether a step is a plain print (rather than a pipeline stage call). -/
def MainStep.isPrint : MainStep → Bool
  | .printLine _ => true
  | _ => false

/-- The notice `main` prints when the fetch result is falsy. -/
def fetchFailedNotice : String := "Failed to fetch data. Exiting."

/-- The banner `main` prints before fetching (lines 181-184). -/
def mainHeader : List String := [eq80, "ESPN NFL API EXPLORATION - DAY 1", eq80, ""]

/-- Model of `main`: the header, the fetcher's own prints, then either the
failure notice (when the fetch result is falsy) or the three pipeline stages
and the completion banner.  `ts` is the `%Y%m%d_%H%M%S` timestamp taken at
run time. -/
def mainRun (net : HttpRequest → NetResult) (ts : String) : List MainStep :=
  let fr := fetch_nfl_scoreboard 2024 none net
  let fetchPrints := fr.2.2.map MainStep.printLine
  (mainHeader.map MainStep.printLine) ++ fetchPrints ++
    (match fr.1 with
     | none => [MainStep.printLine fetchFailedNotice]
     | some d =>
       if truthy d = false then [MainStep.printLine fetchFailedNotice]
       else
         [MainStep.saveRaw d ("nfl_scoreboard_" ++ ts ++ ".json"),
          MainStep.summarize d,
          MainStep.inspect d] ++
           ([eq80, "✅ EXPLORATION COMPLETE", eq80, "",
             "📋 NEXT STEPS:",
             "  1. Check api_research/sample_responses/ for the full JSON",
             "  2. Manually inspect the JSON to see all available fields",
             "  3. Note any interesting fields for later use",
             ""].map MainStep.printLine))

/-! ## Lemmas about decimal digit rendering -/

theorem natCharsAux_append (f : Nat) : ∀ (n : Nat) (acc : List Char),
    natCharsAux f n acc = natCharsAux f n [] ++ acc := by
  induction f with
  | zero => intro n acc; simp [natCharsAux]
  | succ f ih =>
    intro n acc
    by_cases h : n < 10
    · simp [natCharsAux, h]
    · simp only [natCharsAux, if_neg h]
      rw [ih (n / 10) (toDigitChar (n % 10) :: acc), ih (n / 10) [toDigitChar (n % 10)]]
      simp

theorem natCharsAux_fuel (f : Nat) : ∀ (g n : Nat) (acc : List Char), n ≤ f → n ≤ g →
    natCharsAux f n acc = natCharsAux g n acc := by
  induction f with
  | zero =>
    intro g n acc hf _
    interval_cases n
    cases g <;> simp [natCharsAux]
  | succ f ih =>
    intro g n acc hf hg
    by_cases h : n < 10
    · cases g with
      | zero =>
        interval_cases n
        all_goals simp [natCharsAux]
      | succ g => simp [natCharsAux, h]
    · have h10 : 10 ≤ n := by omega
      cases g with
      | zero => omega
      | succ g =>
        simp only [natCharsAux, if_neg h]
        exact ih g (n / 10) _ (by omega) (by omega)

theorem natChars_lt (n : Nat) (h : n < 10) : natChars n = [toDigitChar n] := by
  unfold natChars
  cases hn : n with
  | zero => simp [natCharsAux]
  | succ m => simp [natCharsAux, hn ▸ h]

theorem natChars_ge (n : Nat) (h : 10 ≤ n) :
    natChars n = natChars (n / 10) ++ [toDigitChar (n % 10)] := by
  unfold natChars
  obtain ⟨f, rfl⟩ : ∃ f, n = f + 1 := ⟨n - 1, by omega⟩
  simp only [natCharsAux, if_neg (by omega : ¬ f + 1 < 10)]
  rw [natCharsAux_append, natCharsAux_fuel f ((f + 1) / 10) ((f + 1) / 10) [] (by omega) le_rfl]

theorem toDigitChar_isDigit (d : Nat) (h : d < 10) : (toDigitChar d).isDigit = true := by
  interval_cases d <;> decide

theorem natChars_digits (n : Nat) : ∀ c ∈ natChars n, c.isDigit = true := by
  by_cases h : n < 10
  · rw [natChars_lt n h]
    intro c hc
    simp at hc
    exact hc ▸ toDigitChar_isDigit n h
  · rw [natChars_ge n (by omega)]
    intro c hc
    rcases List.mem_append.mp hc with h1 | h2
    · exact natChars_digits (n / 10) c h1
    · simp at h2
      exact h2 ▸ toDigitChar_isDigit (n % 10) (by omega)
termination_by n
decreasing_by omega

theorem natChars_ne_nil (n : Nat) : natChars n ≠ [] := by
  by_cases h : n < 10
  · rw [natChars_lt n h]; simp
  · rw [natChars_ge n (by omega)]; simp

theorem digitsToNat_append_one (l : List Char) (c : Char) :
    digitsToNat (l ++ [c]) = digitsToNat l * 10 + (c.toNat - 48) := by
  simp [digitsToNat, List.foldl_append]

theorem toDigitChar_toNat (d : Nat) (h : d < 10) : (toDigitChar d).toNat - 48 = d := by
  interval_cases d <;> decide

theorem digitsToNat_natChars (n : Nat) : digitsToNat (natChars n) = n := by
  by_cases h : n < 10
  · rw [natChars_lt n h]
    show digitsToNat ([] ++ [toDigitChar n]) = n
    rw [digitsToNat_append_one, toDigitChar_toNat n h]
    simp [digitsToNat]
  · rw [natChars_ge n (by omega), digitsToNat_append_one,
      digitsToNat_natChars (n / 10), toDigitChar_toNat (n % 10) (by omega)]
    omega
termination_by n
decreasing_by omega

theorem natChars_injective (m n : Nat) (h : natChars m = natChars n) : m = n := by
  have := digitsToNat_natChars m
  rw [h, digitsToNat_natChars n] at this
  omega

theorem natChars_head_zero (n : Nat) (c : Char) (t : List Char)
    (h : natChars n = c :: t) (hc : c = '0') : n = 0 := by
  by_cases hn : n < 10
  · rw [natChars_lt n hn] at h
    cases h
    interval_cases n
    · rfl
    all_goals simp [toDigitChar] at hc
  · rw [natChars_ge n (by omega)] at h
    have hne := natChars_ne_nil (n / 10)
    obtain ⟨c2, t2, ht⟩ : ∃ c2 t2, natChars (n / 10) = c2 :: t2 := by
      cases hh : natChars (n / 10) with
      | nil => exact absurd hh hne
      | cons a b => exact ⟨a, b, rfl⟩
    rw [ht] at h
    simp at h
    have : n / 10 = 0 := natChars_head_zero (n / 10) c2 t2 ht (h.1.trans hc)
    omega
termination_by n
decreasing_by omega

/-! ## Lemmas about the date parser -/

theorem digitVal_toDigitChar (d : Nat) (h : d < 10) : digitVal (toDigitChar d) = some d := by
  interval_cases d <;> decide

theorem parse2_digits (n : Nat) (h : n ≤ 99) (r : List Char) :
    parse2 (toDigitChar (n / 10 % 10) :: toDigitChar (n % 10) :: r) = some (n, r) := by
  simp only [parse2, digitVal_toDigitChar (n / 10 % 10) (by omega),
    digitVal_toDigitChar (n % 10) (by omega)]
  have h2 : n / 10 % 10 * 10 + n % 10 = n := by omega
  rw [h2]

theorem parse4_digits (n : Nat) (h : n ≤ 9999) (r : List Char) :
    parse4 (toDigitChar (n / 1000 % 10) :: toDigitChar (n / 100 % 10) ::
      toDigitChar (n / 10 % 10) :: toDigitChar (n % 10) :: r) = some (n, r) := by
  simp only [parse4, digitVal_toDigitChar (n / 1000 % 10) (by omega),
    digitVal_toDigitChar (n / 100 % 10) (by omega),
    digitVal_toDigitChar (n / 10 % 10) (by omega), digitVal_toDigitChar (n % 10) (by omega)]
  have h2 : ((n / 1000 % 10 * 10 + n / 100 % 10) * 10 + n / 10 % 10) * 10 + n % 10 = n := by
    omega
  rw [h2]

theorem daysInMonth_le (y m : Nat) : daysInMonth y m ≤ 31 := by
  unfold daysInMonth
  split
  · split <;> omega
  · split <;> omega

theorem replaceZ_append (a b : List Char) :
    replaceZ (a ++ b) = replaceZ a ++ replaceZ b := by
  induction a with
  | nil => simp [replaceZ]
  | cons c t ih => simp [replaceZ, ih]

theorem replaceZ_noZ (l : List Char) (h : ∀ c ∈ l, c ≠ 'Z') : replaceZ l = l := by
  induction l with
  | nil => rfl
  | cons c t ih =>
    have hc : c ≠ 'Z' := h c (by simp)
    simp [replaceZ, hc, ih (fun x hx => h x (by simp [hx]))]

theorem toDigitChar_ne_Z (d : Nat) : toDigitChar d ≠ 'Z' := by
  unfold toDigitChar
  split <;> decide

/-- Claim C3: a date string of the form `YYYY-MM-DDTHH:MMZ` (valid calendar
components, four-digit year) is rendered by the summarizer's date step as
the UTC wall-clock time in `YYYY-MM-DD hh:mm AM/PM` form: the `Z` is
replaced by `+00:00`, the string parses, and the components pass through
unshifted into `strftime("%Y-%m-%d %I:%M %p")`. -/
theorem c3_z_suffixed_date_renders_utc (y mo d h mi : Nat)
    (hy1 : 1000 ≤ y) (hy2 : y ≤ 9999) (hmo1 : 1 ≤ mo) (hmo2 : mo ≤ 12)
    (hd1 : 1 ≤ d) (hd2 : d ≤ daysInMonth y mo) (hh : h ≤ 23) (hmi : mi ≤ 59) :
    formatGameDate (.str (String.mk
        (pad4 y ++ '-' :: pad2 mo ++ '-' :: pad2 d ++ 'T' :: pad2 h ++ ':' :: pad2 mi ++ ['Z'])))
      = .str (strftimeUS ⟨y, mo, d, h, mi, 0⟩) := by
  have x1 : ∀ r : List Char, expectChar '-' ('-' :: r) = some r := fun r => by
    simp [expectChar]
  have x2 : ∀ r : List Char, expectChar ':' (':' :: r) = some r := fun r => by
    simp [expectChar]
  have x3 : ∀ r : List Char, expectChar ':' ('+' :: r) = none := fun r => by
    simp only [expectChar]
    rw [if_neg (by decide)]
  have gfin : finishOffset ['+', '0', '0', ':', '0', '0'] = some () := by decide
  have step : formatGameDate (.str (String.mk
      (pad4 y ++ '-' :: pad2 mo ++ '-' :: pad2 d ++ 'T' :: pad2 h ++ ':' :: pad2 mi ++ ['Z'])))
      = (match fromisoformat (String.mk (replaceZ
          (pad4 y ++ '-' :: pad2 mo ++ '-' :: pad2 d ++ 'T' :: pad2 h ++ ':' :: pad2 mi ++ ['Z']))) with
        | some dt => Json.str (strftimeUS dt)
        | none => Json.str (String.mk
            (pad4 y ++ '-' :: pad2 mo ++ '-' :: pad2 d ++ 'T' :: pad2 h ++ ':' :: pad2 mi ++ ['Z']))) := rfl
  rw [step]
  have hrepl : String.mk (replaceZ
      (pad4 y ++ '-' :: pad2 mo ++ '-' :: pad2 d ++ 'T' :: pad2 h ++ ':' :: pad2 mi ++ ['Z']))
      = String.mk (toDigitChar (y / 1000 % 10) :: toDigitChar (y / 100 % 10) ::
          toDigitChar (y / 10 % 10) :: toDigitChar (y % 10) :: '-' ::
          toDigitChar (mo / 10 % 10) :: toDigitChar (mo % 10) :: '-' ::
          toDigitChar (d / 10 % 10) :: toDigitChar (d % 10) :: 'T' ::
          toDigitChar (h / 10 % 10) :: toDigitChar (h % 10) :: ':' ::
          toDigitChar (mi / 10 % 10) :: toDigitChar (mi % 10) ::
          ['+', '0', '0', ':', '0', '0']) := by
    have : ∀ dd : Nat, ¬ toDigitChar dd = 'Z' := toDigitChar_ne_Z
    simp [pad4, pad2, replaceZ, this]
  rw [hrepl]
  have hparse : fromisoformat (String.mk (toDigitChar (y / 1000 % 10) :: toDigitChar (y / 100 % 10) ::
      toDigitChar (y / 10 % 10) :: toDigitChar (y % 10) :: '-' ::
      toDigitChar (mo / 10 % 10) :: toDigitChar (mo % 10) :: '-' ::
      toDigitChar (d / 10 % 10) :: toDigitChar (d % 10) :: 'T' ::
      toDigitChar (h / 10 % 10) :: toDigitChar (h % 10) :: ':' ::
      toDigitChar (mi / 10 % 10) :: toDigitChar (mi % 10) ::
      ['+', '0', '0', ':', '0', '0'])) = some ⟨y, mo, d, h, mi, 0⟩ := by
    unfold fromisoformat
    rw [show (String.mk (toDigitChar (y / 1000 % 10) :: toDigitChar (y / 100 % 10) ::
        toDigitChar (y / 10 % 10) :: toDigitChar (y % 10) :: '-' ::
        toDigitChar (mo / 10 % 10) :: toDigitChar (mo % 10) :: '-' ::
        toDigitChar (d / 10 % 10) :: toDigitChar (d % 10) :: 'T' ::
        toDigitChar (h / 10 % 10) :: toDigitChar (h % 10) :: ':' ::
        toDigitChar (mi / 10 % 10) :: toDigitChar (mi % 10) ::
        ['+', '0', '0', ':', '0', '0'])).data
      = toDigitChar (y / 1000 % 10) :: toDigitChar (y / 100 % 10) ::
        toDigitChar (y / 10 % 10) :: toDigitChar (y % 10) :: '-' ::
        toDigitChar (mo / 10 % 10) :: toDigitChar (mo % 10) :: '-' ::
        toDigitChar (d / 10 % 10) :: toDigitChar (d % 10) :: 'T' ::
        toDigitChar (h / 10 % 10) :: toDigitChar (h % 10) :: ':' ::
        toDigitChar (mi / 10 % 10) :: toDigitChar (mi % 10) ::
        ['+', '0', '0', ':', '0', '0'] from rfl,
      parse4_digits y hy2]
    have hd99 : d ≤ 99 := by
      have := daysInMonth_le y mo
      omega
    simp only [x1, x2, x3, parse2_digits mo (by omega : mo ≤ 99),
      parse2_digits d hd99, parseTimeAndOffset,
      parse2_digits h (by omega : h ≤ 99), parse2_digits mi (by omega : mi ≤ 99), gfin]
    rw [if_pos]
    simp only [Bool.and_eq_true, decide_eq_true_eq]
    refine ⟨⟨⟨⟨⟨⟨⟨?_, ?_⟩, ?_⟩, ?_⟩, ?_⟩, ?_⟩, ?_⟩, ?_⟩ <;> omega
  rw [hparse]

/-- Witness for C3 at the example of the claim:
`"2024-09-08T17:00Z"` renders as `"2024-09-08 05:00 PM"`. -/
theorem c3_witness :
    formatGameDate (.str "2024-09-08T17:00Z") = .str "2024-09-08 05:00 PM" := by
  have h := c3_z_suffixed_date_renders_utc 2024 9 8 17 0
    (by decide) (by decide) (by decide) (by decide) (by decide) (by decide) (by decide) (by decide)
  have harg : String.mk
      (pad4 2024 ++ '-' :: pad2 9 ++ '-' :: pad2 8 ++ 'T' :: pad2 17 ++ ':' :: pad2 0 ++ ['Z'])
      = "2024-09-08T17:00Z" := by decide
  have hout : strftimeUS ⟨2024, 9, 8, 17, 0, 0⟩ = "2024-09-08 05:00 PM" := by decide
  rw [harg, hout] at h
  exact h

/-- Claim C4: when the substituted date string does not parse, the
formatted date is the original string, unchanged, and no failure escapes
(the formatting step is a total function). -/
theorem c4_unparseable_date_falls_back (s : String)
    (h : fromisoformat (String.mk (replaceZ s.data)) = none) :
    formatGameDate (.str s) = .str s := by
  have step : formatGameDate (.str s)
      = (match fromisoformat (String.mk (replaceZ s.data)) with
        | some dt => Json.str (strftimeUS dt)
        | none => Json.str s) := rfl
  rw [step, h]

/-- Witness for C4 at the example of the spec: `"not-a-date"` is printed
verbatim. -/
theorem c4_witness :
    formatGameDate (.str "not-a-date") = .str "not-a-date" :=
  c4_unparseable_date_falls_back "not-a-date" (by decide)

/-- Claim C9: a zero week value is falsy, so the fetcher's query carries
only `limit`, exactly as when no week is given; a nonzero week adds both
`week` and `seasontype`. -/
theorem c9_week_zero_like_absent :
    buildParams (some 0) = buildParams none ∧
      scoreboardRequest (some 0) = scoreboardRequest none ∧
      ∀ w : Int, w ≠ 0 →
        buildParams (some w) = [("limit", 100), ("week", w), ("seasontype", 2)] := by
  refine ⟨rfl, rfl, ?_⟩
  intro w hw
  simp [buildParams, bne_iff_ne, hw]

/-- Witness for C9: week 5 pins both `week` and `seasontype`. -/
theorem c9_witness :
    buildParams (some 5) = [("limit", 100), ("week", 5), ("seasontype", 2)] :=
  c9_week_zero_like_absent.2.2 5 (by decide)

/-! ## Lemmas about the summarizer -/

theorem exceptOk_bind {α β : Type} (a : α) (f : α → Except String β) :
    (Except.ok a >>= f) = f a := rfl

theorem exceptPure {α : Type} (a : α) : (pure a : Except String α) = Except.ok a := rfl

theorem bool_and_split (a b : Bool) (h : (a && b) = true) : a = true ∧ b = true := by
  simp only [Bool.and_eq_true] at h
  exact h

theorem bool_or_split (a b : Bool) (h : (a || b) = true) : a = true ∨ b = true := by
  simp only [Bool.or_eq_true] at h
  exact h

theorem lookup_some_any (kvs : List (String × Json)) (k : String) (v : Json)
    (h : List.lookup k kvs = some v) : kvs.any (fun p => p.1 == k) = true := by
  induction kvs with
  | nil => simp [List.lookup] at h
  | cons p rest ih =>
    rw [List.lookup] at h
    cases hbe : k == p.1 with
    | true => simp [beq_iff_eq.mp hbe]
    | false =>
      rw [hbe] at h
      simp only [] at h
      simp only [List.any_cons, Bool.or_eq_true]
      right
      exact ih h

theorem lookup_none_any (kvs : List (String × Json)) (k : String)
    (h : List.lookup k kvs = none) : kvs.any (fun p => p.1 == k) = false := by
  induction kvs with
  | nil => simp
  | cons p rest ih =>
    rw [List.lookup] at h
    cases hbe : k == p.1 with
    | true => rw [hbe] at h; simp at h
    | false =>
      rw [hbe] at h
      simp only [] at h
      simp only [List.any_cons, Bool.or_eq_false_iff]
      refine ⟨?_, ih h⟩
      have hne := beq_eq_false_iff_ne.mp hbe
      simp [beq_eq_false_iff_ne]
      exact fun he => hne he.symm

theorem pyGetD_isObj (j : Json) (hj : isObj j = true) (k : String) (d : Json) :
    pyGetD j k d = .ok (jget j k d) := by
  cases j <;> first | rfl | simp [isObj] at hj

theorem statusOk_st1 (e : Json) (h : statusOk e = true) :
    isObj (jget e "status" (.obj [])) = true := by
  unfold statusOk at h
  cases hl : jlookup e "status" with
  | none =>
    have hd : jget e "status" (.obj []) = .obj [] := by unfold jget; rw [hl]; rfl
    rw [hd]
    rfl
  | some st =>
    have hd : jget e "status" (.obj []) = st := by unfold jget; rw [hl]; rfl
    rw [hd]
    rw [hl] at h
    exact (bool_and_split _ _ h).1

theorem statusOk_st2 (e : Json) (h : statusOk e = true) :
    isObj (jget (jget e "status" (.obj [])) "type" (.obj [])) = true := by
  unfold statusOk at h
  cases hl : jlookup e "status" with
  | none =>
    have hd : jget e "status" (.obj []) = .obj [] := by unfold jget; rw [hl]; rfl
    rw [hd]
    rfl
  | some st =>
    have hd : jget e "status" (.obj []) = st := by unfold jget; rw [hl]; rfl
    rw [hd]
    rw [hl] at h
    have hb := (bool_and_split _ _ h).2
    cases hl2 : jlookup st "type" with
    | none =>
      have hd2 : jget st "type" (.obj []) = .obj [] := by unfold jget; rw [hl2]; rfl
      rw [hd2]
      rfl
    | some t =>
      have hd2 : jget st "type" (.obj []) = t := by unfold jget; rw [hl2]; rfl
      rw [hd2]
      rw [hl2] at hb
      simpa using hb

theorem bannerOk_season (d : Json) (h : bannerOk d = true) :
    isObj (jget d "season" (.obj [])) = true := by
  unfold bannerOk at h
  have hs := (bool_and_split _ _ h).1
  cases hl : jlookup d "season" with
  | none =>
    have hd : jget d "season" (.obj []) = .obj [] := by unfold jget; rw [hl]; rfl
    rw [hd]
    rfl
  | some s =>
    have hd : jget d "season" (.obj []) = s := by unfold jget; rw [hl]; rfl
    rw [hd]
    rw [hl] at hs
    exact hs

theorem bannerOk_week (d : Json) (h : bannerOk d = true) :
    isObj (jget d "week" (.obj [])) = true := by
  unfold bannerOk at h
  have hs := (bool_and_split _ _ h).2
  cases hl : jlookup d "week" with
  | none =>
    have hd : jget d "week" (.obj []) = .obj [] := by unfold jget; rw [hl]; rfl
    rw [hd]
    rfl
  | some w =>
    have hd : jget d "week" (.obj []) = w := by unfold jget; rw [hl]; rfl
    rw [hd]
    rw [hl] at hs
    exact hs

theorem firstWhere_isObj (tag : String) (xs : List Json) (h : xs.all isObj = true) :
    isObj (firstWhere tag xs) = true := by
  induction xs with
  | nil => rfl
  | cons c rest ih =>
    simp only [List.all_cons, Bool.and_eq_true] at h
    by_cases hc : homeAwayIs tag c = true
    · simp [firstWhere, hc, h.1]
    · simp [firstWhere, hc, ih h.2]

theorem jget_team_isObj (c : Json)
    (h : (match jlookup c "team" with | none => true | some t => isObj t) = true) :
    isObj (jget c "team" (.obj [])) = true := by
  cases hl : jlookup c "team" with
  | none =>
    have hd : jget c "team" (.obj []) = .obj [] := by unfold jget; rw [hl]; rfl
    rw [hd]
    rfl
  | some t =>
    have hd : jget c "team" (.obj []) = t := by unfold jget; rw [hl]; rfl
    rw [hd]
    rw [hl] at h
    simpa using h

theorem pyFirstWhere_all_obj (tag : String) (xs : List Json) (h : xs.all isObj = true) :
    pyFirstWhere tag xs = .ok (firstWhere tag xs) := by
  induction xs with
  | nil => rfl
  | cons c rest ih =>
    simp only [List.all_cons, Bool.and_eq_true] at h
    cases c with
    | obj kvs =>
      by_cases hc : homeAwayIs tag (Json.obj kvs) = true
      · simp [pyFirstWhere, firstWhere, hc]
      · simp [pyFirstWhere, firstWhere, hc, ih h.2]
    | null => simp [isObj] at h
    | bool b => simp [isObj] at h
    | num n => simp [isObj] at h
    | str s => simp [isObj] at h
    | arr xs2 => simp [isObj] at h

theorem summarizeEvent_spec (idx : Nat) (e : Json) (h : eventOk e = true) :
    summarizeEvent idx e = .ok (if qualifies e then renderBlock idx e else []) := by
  unfold eventOk at h
  have h1 := bool_and_split _ _ h
  have h2 := bool_and_split _ _ h1.1
  have hobj : isObj e = true := h2.1
  have hst : statusOk e = true := h2.2
  have hm := h1.2
  unfold summarizeEvent
  simp only [pyGetD_isObj e hobj, exceptOk_bind]
  simp only [pyGetD_isObj _ (statusOk_st1 e hst), exceptOk_bind]
  simp only [pyGetD_isObj _ (statusOk_st2 e hst), exceptOk_bind]
  by_cases hq : truthy (jget e "competitions" (.arr [])) = true
  · cases hcl : jlookup e "competitions" with
    | none =>
      have hjc : jget e "competitions" (.arr []) = .arr [] := by unfold jget; rw [hcl]; rfl
      rw [hjc] at hq
      simp [truthy] at hq
    | some comps =>
      have hjc : jget e "competitions" (.arr []) = comps := by unfold jget; rw [hcl]; rfl
      rw [hjc] at hq
      rw [hcl] at hm
      simp only [hq, Bool.not_true, Bool.false_or] at hm
      cases comps with
      | arr xs =>
        cases xs with
        | nil => simp at hm
        | cons c0 crest =>
          have hm2 := bool_and_split _ _ hm
          have hc0 : isObj c0 = true := hm2.1
          have hmcs := hm2.2
          rw [hjc, if_pos hq]
          simp only [pyIndex0, exceptOk_bind]
          simp only [pyGetD_isObj c0 hc0, exceptOk_bind]
          cases hcs : jlookup c0 "competitors" with
          | none =>
            have hd : jget c0 "competitors" (.arr []) = .arr [] := by
              unfold jget; rw [hcs]; rfl
            rw [hd]
            simp only [pyLen, exceptOk_bind]
            rw [if_neg (by simp)]
            have hqf : qualifies e = false := by
              simp [qualifies, hjc, hd, hq]
            rw [hqf]
            rfl
          | some cs =>
            have hd : jget c0 "competitors" (.arr []) = cs := by
              unfold jget; rw [hcs]; rfl
            rw [hd]
            rw [hcs] at hmcs
            cases cs with
            | arr xs2 =>
              simp only [pyLen, exceptOk_bind]
              by_cases hlen : 2 ≤ xs2.length
              · rw [if_pos hlen]
                have hco : competitorsOk xs2 = true := by
                  rcases bool_or_split _ _ hmcs with hlt | hco
                  · simp only [decide_eq_true_eq] at hlt
                    omega
                  · exact hco
                have hco1 := bool_and_split _ _ hco
                have hco2 := bool_and_split _ _ hco1.1
                have hall : xs2.all isObj = true := hco2.1
                simp only [pyIter, exceptOk_bind]
                rw [pyFirstWhere_all_obj "home" xs2 hall]
                simp only [exceptOk_bind]
                rw [pyFirstWhere_all_obj "away" xs2 hall]
                simp only [exceptOk_bind]
                simp only [pyGetD_isObj _ (firstWhere_isObj "home" xs2 hall), exceptOk_bind]
                simp only [pyGetD_isObj _ (jget_team_isObj _ hco2.2), exceptOk_bind]
                simp only [pyGetD_isObj _ (firstWhere_isObj "away" xs2 hall), exceptOk_bind]
                simp only [pyGetD_isObj _ (jget_team_isObj _ hco1.2), exceptOk_bind]
                have hqt : qualifies e = true := by
                  simp [qualifies, hjc, hd, hq, hlen]
                rw [hqt]
                simp only [renderBlock, first0, hjc, hd, if_pos]
                rfl
              · rw [if_neg hlen]
                have hqf : qualifies e = false := by
                  simp [qualifies, hjc, hd, hq, hlen]
                rw [hqf]
                rfl
            | str s =>
              simp only [pyLen, exceptOk_bind]
              simp only [decide_eq_true_eq] at hmcs
              rw [if_neg (by omega)]
              have hqf : qualifies e = false := by
                simp [qualifies, hjc, hd, hq]
              rw [hqf]
              rfl
            | obj kvs2 =>
              simp only [pyLen, exceptOk_bind]
              simp only [decide_eq_true_eq] at hmcs
              rw [if_neg (by omega)]
              have hqf : qualifies e = false := by
                simp [qualifies, hjc, hd, hq]
              rw [hqf]
              rfl
            | null => simp at hmcs
            | bool b => simp at hmcs
            | num n => simp at hmcs
      | null => simp at hm
      | bool b => simp at hm
      | num n => simp at hm
      | str s => simp at hm
      | obj kvs2 => simp at hm
  · have hq2 : truthy (jget e "competitions" (.arr [])) = false := by
      cases htr : truthy (jget e "competitions" (.arr [])) with
      | true => exact absurd htr hq
      | false => rfl
    rw [if_neg hq]
    have hqf : qualifies e = false := by
      simp [qualifies, hq2]
    rw [hqf]
    rfl

theorem summarizeEvents_spec (es : List Json) : ∀ idx : Nat, es.all eventOk = true →
    summarizeEvents idx es = .ok (renderEvents idx es) := by
  induction es with
  | nil => intro idx _; rfl
  | cons e rest ih =>
    intro idx h
    simp only [List.all_cons, Bool.and_eq_true] at h
    simp only [summarizeEvents, summarizeEvent_spec idx e h.1, exceptOk_bind,
      ih (idx + 1) h.2]
    rfl

theorem print_game_summary_spec (kvs : List (String × Json)) (es : List Json)
    (hev : List.lookup "events" kvs = some (.arr es)) (hne : es ≠ [])
    (hb : bannerOk (.obj kvs) = true) (hall : es.all eventOk = true) :
    print_game_summary (.obj kvs) = .ok (bannerLines (.obj kvs) ++ renderEvents 1 es) := by
  have htr : truthy (.obj kvs) = true := by
    cases kvs with
    | nil => simp [List.lookup] at hev
    | cons p rest => simp [truthy]
  have hhas : kvs.any (fun p => p.1 == "events") = true := lookup_some_any kvs "events" _ hev
  have hobj : isObj (Json.obj kvs) = true := rfl
  have hje : jget (.obj kvs) "events" (.arr []) = .arr es := by
    simp [jget, jlookup, hev]
  have hestr : truthy (.arr es) = true := by
    cases es with
    | nil => exact absurd rfl hne
    | cons a b => simp [truthy]
  unfold print_game_summary
  rw [if_neg (by simp [htr])]
  simp only [pyContains, exceptOk_bind]
  rw [if_neg (by simp [hhas])]
  simp only [pyGetD_isObj _ hobj, exceptOk_bind]
  simp only [pyGetD_isObj _ (bannerOk_season _ hb), exceptOk_bind]
  simp only [pyGetD_isObj _ (bannerOk_week _ hb), exceptOk_bind]
  rw [hje]
  rw [if_neg (by simp [hestr])]
  simp only [pyIter, exceptOk_bind]
  rw [summarizeEvents_spec es 1 hall]
  simp only [exceptOk_bind]
  rfl

/-- Claim C2: a response without an `events` key prints exactly the
"no games" notice (and nothing else); a response with an empty `events`
sequence prints the banner followed by the per-week "no games" notice;
neither raises, and no per-event formatting runs. -/
theorem c2_no_events_notice (kvs1 kvs2 : List (String × Json))
    (h1 : List.lookup "events" kvs1 = none)
    (h2 : List.lookup "events" kvs2 = some (.arr []))
    (hb : bannerOk (.obj kvs2) = true) :
    print_game_summary (.obj kvs1) = .ok [noGamesNotice] ∧
      print_game_summary (.obj kvs2) = .ok (bannerLines (.obj kvs2) ++ [emptyWeekNotice]) := by
  constructor
  · unfold print_game_summary
    by_cases htr : truthy (.obj kvs1) = true
    · rw [if_neg (by simp [htr])]
      simp only [pyContains, exceptOk_bind]
      rw [if_pos (lookup_none_any kvs1 "events" h1)]
      rfl
    · have hf : truthy (.obj kvs1) = false := by
        cases htv : truthy (.obj kvs1) with
        | true => exact absurd htv htr
        | false => rfl
      rw [if_pos hf]
      rfl
  · have htr : truthy (.obj kvs2) = true := by
      cases kvs2 with
      | nil => simp [List.lookup] at h2
      | cons p rest => simp [truthy]
    have hhas : kvs2.any (fun p => p.1 == "events") = true :=
      lookup_some_any kvs2 "events" _ h2
    have hobj : isObj (Json.obj kvs2) = true := rfl
    have hje : jget (.obj kvs2) "events" (.arr []) = .arr [] := by
      simp [jget, jlookup, h2]
    unfold print_game_summary
    rw [if_neg (by simp [htr])]
    simp only [pyContains, exceptOk_bind]
    rw [if_neg (by simp [hhas])]
    simp only [pyGetD_isObj _ hobj, exceptOk_bind]
    simp only [pyGetD_isObj _ (bannerOk_season _ hb), exceptOk_bind]
    simp only [pyGetD_isObj _ (bannerOk_week _ hb), exceptOk_bind]
    rw [hje]
    rw [if_pos (by simp [truthy])]
    rfl

/-- Witness for C2: the empty object has no `events` key; an `events` key
holding an empty list prints the banner and the per-week notice. -/
theorem c2_witness :
    print_game_summary (.obj []) = .ok [noGamesNotice] ∧
      print_game_summary (.obj [("events", .arr [])]) =
        .ok (bannerLines (.obj [("events", .arr [])]) ++ [emptyWeekNotice]) :=
  c2_no_events_notice [] [("events", .arr [])] rfl rfl rfl

/-- Claim C1 counterexample: on the minimal event `\x7b\x7d` the summarizer
prints no block at all — the output is exactly the six banner lines, and none
of them is a `Game ...` line — contradicting the claim that a block with all
fields `Unknown` is still printed (with only the matchup line omitted). -/
theorem c1_counterexample :
    print_game_summary (.obj [("events", .arr [.obj []])]) =
      .ok [eq80, "📅 NFL SCHEDULE", "   Season: Unknown", "   Week: Unknown", eq80, ""] ∧
      ([eq80, "📅 NFL SCHEDULE", "   Season: Unknown", "   Week: Unknown", eq80, ""].all
        (fun l => !(['G', 'a', 'm', 'e'].isPrefixOf l.data))) = true := by
  constructor
  · rfl
  · rfl

theorem renderEvents_all_skipped (es : List Json) : ∀ idx : Nat,
    es.all (fun e => !qualifies e) = true → renderEvents idx es = [] := by
  induction es with
  | nil => intro idx _; rfl
  | cons e rest ih =>
    intro idx h
    simp only [List.all_cons, Bool.and_eq_true] at h
    have hq : qualifies e = false := by
      have hb2 := h.1
      cases hqe : qualifies e with
      | true => rw [hqe] at hb2; simp at hb2
      | false => rfl
    simp only [renderEvents, hq, ih (idx + 1) h.2]
    simp

/-- Claim C1 (amended): for an event with no competitions entry or with
fewer than two competitors, the summarizer suppresses the event's whole
4-line block (nothing at all is printed for that event), rather than
printing an `Unknown`-filled block without the matchup line: a response all
of whose events are such prints only the banner. -/
theorem c1_amended_block_suppressed (kvs : List (String × Json)) (es : List Json)
    (hev : List.lookup "events" kvs = some (.arr es)) (hne : es ≠ [])
    (hb : bannerOk (.obj kvs) = true) (hall : es.all eventOk = true)
    (hnq : es.all (fun e => !qualifies e) = true) :
    print_game_summary (.obj kvs) = .ok (bannerLines (.obj kvs)) := by
  rw [print_game_summary_spec kvs es hev hne hb hall,
    renderEvents_all_skipped es 1 hnq, List.append_nil]

/-- Witness for the amended C1 at the minimal event of the claim. -/
theorem c1_witness :
    print_game_summary (.obj [("events", .arr [.obj []])]) =
      .ok (bannerLines (.obj [("events", .arr [.obj []])])) :=
  c1_amended_block_suppressed [("events", .arr [.obj []])] [.obj []]
    rfl (by simp) rfl rfl rfl

/-! ## Lemmas locating the `Game {n}:` lines for C10 -/

theorem natStr_injective (a b : Nat) (h : natStr a = natStr b) : a = b := by
  unfold natStr at h
  exact natChars_injective a b (congrArg String.data h)

theorem gameLine_data (n : Nat) :
    (gameLine n).data = 'G' :: 'a' :: 'm' :: 'e' :: ' ' :: (natChars n ++ [':']) := by
  simp [gameLine, natStr, String.data_append]

theorem gameLine_inj (a b : Nat) (h : gameLine a = gameLine b) : a = b := by
  have hd := congrArg String.data h
  rw [gameLine_data, gameLine_data] at hd
  simp only [List.cons.injEq, true_and] at hd
  exact natChars_injective a b (List.append_left_injective _ hd)

theorem ne_gameLine_of_head (s : String) (c : Char) (hc : s.data.head? = some c)
    (hG : c ≠ 'G') (n : Nat) : s ≠ gameLine n := by
  intro he
  rw [he, gameLine_data] at hc
  simp at hc
  exact hG hc.symm

theorem ne_gameLine_of_head_none (s : String) (hc : s.data.head? = none) (n : Nat) :
    s ≠ gameLine n := by
  intro he
  rw [he, gameLine_data] at hc
  simp at hc

theorem seasonLine_ne_gameLine (x : String) (n : Nat) : "   Season: " ++ x ≠ gameLine n :=
  ne_gameLine_of_head ("   Season: " ++ x) ' ' rfl (by decide) n

theorem weekLine_ne_gameLine (x : String) (n : Nat) : "   Week: " ++ x ≠ gameLine n :=
  ne_gameLine_of_head ("   Week: " ++ x) ' ' rfl (by decide) n

theorem idLine_ne_gameLine (x : String) (n : Nat) : "  ID: " ++ x ≠ gameLine n :=
  ne_gameLine_of_head ("  ID: " ++ x) ' ' rfl (by decide) n

theorem matchupLine_ne_gameLine (x : String) (n : Nat) : "  Matchup: " ++ x ≠ gameLine n :=
  ne_gameLine_of_head ("  Matchup: " ++ x) ' ' rfl (by decide) n

theorem dateLine_ne_gameLine (x : String) (n : Nat) : "  Date: " ++ x ≠ gameLine n :=
  ne_gameLine_of_head ("  Date: " ++ x) ' ' rfl (by decide) n

theorem statusLine_ne_gameLine (x : String) (n : Nat) : "  Status: " ++ x ≠ gameLine n :=
  ne_gameLine_of_head ("  Status: " ++ x) ' ' rfl (by decide) n

theorem gameLine_not_mem_banner (d : Json) (n : Nat) : gameLine n ∉ bannerLines d := by
  intro hmem
  simp only [bannerLines, List.mem_cons, List.not_mem_nil, or_false] at hmem
  rcases hmem with h | h | h | h | h | h
  · exact (ne_gameLine_of_head eq80 '=' rfl (by decide) n) h.symm
  · exact (ne_gameLine_of_head "📅 NFL SCHEDULE" '📅' rfl (by decide) n) h.symm
  · exact seasonLine_ne_gameLine _ n h.symm
  · exact weekLine_ne_gameLine _ n h.symm
  · exact (ne_gameLine_of_head eq80 '=' rfl (by decide) n) h.symm
  · exact (ne_gameLine_of_head_none "" rfl n) h.symm

theorem mem_renderBlock_iff (idx n : Nat) (e : Json) :
    gameLine n ∈ renderBlock idx e ↔ n = idx := by
  simp only [renderBlock, List.mem_cons, List.not_mem_nil, or_false]
  constructor
  · rintro (h | h | h | h | h | h)
    · exact gameLine_inj n idx h
    · exact absurd h.symm (idLine_ne_gameLine _ n)
    · exact absurd h.symm (matchupLine_ne_gameLine _ n)
    · exact absurd h.symm (dateLine_ne_gameLine _ n)
    · exact absurd h.symm (statusLine_ne_gameLine _ n)
    · exact absurd h.symm (ne_gameLine_of_head_none "" rfl n)
  · intro h
    subst h
    left
    rfl

theorem mem_renderEvents_iff (es : List Json) : ∀ idx n : Nat,
    gameLine n ∈ renderEvents idx es ↔
      ∃ j : Nat, j < es.length ∧ idx + j = n ∧ qualifies (es.getD j .null) = true := by
  induction es with
  | nil =>
    intro idx n
    simp [renderEvents]
  | cons e rest ih =>
    intro idx n
    simp only [renderEvents, List.mem_append]
    constructor
    · rintro (hblk | hrest)
      · by_cases hq : qualifies e = true
        · rw [if_pos hq] at hblk
          have := (mem_renderBlock_iff idx n e).mp hblk
          exact ⟨0, by simp, by omega, by simpa [List.getD] using hq⟩
        · rw [if_neg hq] at hblk
          simp at hblk
      · obtain ⟨j, hj, hsum, hq⟩ := (ih (idx + 1) n).mp hrest
        exact ⟨j + 1, by simpa using hj, by omega, by simpa [List.getD] using hq⟩
    · rintro ⟨j, hj, hsum, hq⟩
      cases j with
      | zero =>
        left
        simp only [List.getD_cons_zero] at hq
        rw [if_pos hq]
        exact (mem_renderBlock_iff idx n e).mpr (by omega)
      | succ j =>
        right
        refine (ih (idx + 1) n).mpr ⟨j, by simpa using hj, by omega, ?_⟩
        simpa [List.getD] using hq

/-- Claim C10: the game number printed in each block is the event's
1-based position in the original `events` sequence: `Game {i+1}:` appears
in the output exactly when the event at 0-based position `i` qualifies, so
skipped events leave gaps in the printed numbering. -/
theorem c10_game_index_is_position (kvs : List (String × Json)) (es : List Json)
    (hev : List.lookup "events" kvs = some (.arr es)) (hne : es ≠ [])
    (hb : bannerOk (.obj kvs) = true) (hall : es.all eventOk = true) :
    print_game_summary (.obj kvs) = .ok (bannerLines (.obj kvs) ++ renderEvents 1 es) ∧
      ∀ i : Nat, (gameLine (i + 1) ∈ bannerLines (.obj kvs) ++ renderEvents 1 es ↔
        i < es.length ∧ qualifies (es.getD i .null) = true) := by
  refine ⟨print_game_summary_spec kvs es hev hne hb hall, ?_⟩
  intro i
  rw [List.mem_append]
  constructor
  · rintro (hbn | hr)
    · exact absurd hbn (gameLine_not_mem_banner _ _)
    · obtain ⟨j, hj, hsum, hq⟩ := (mem_renderEvents_iff es 1 (i + 1)).mp hr
      have hji : j = i := by omega
      subst hji
      exact ⟨hj, hq⟩
  · rintro ⟨hi, hq⟩
    right
    exact (mem_renderEvents_iff es 1 (i + 1)).mpr ⟨i, hi, by omega, hq⟩

/-- Witness for C10: with a first event that is skipped (no competitions)
and a second that qualifies, the output contains `Game 2:` but no
`Game 1:` — the numbering has a gap. -/
theorem c10_witness :
    (gameLine 2 ∈ bannerLines (.obj [("events", .arr [.obj [],
        .obj [("competitions", .arr [.obj [("competitors", .arr [.obj [], .obj []])]])]])]) ++
      renderEvents 1 [.obj [],
        .obj [("competitions", .arr [.obj [("competitors", .arr [.obj [], .obj []])]])]]) ∧
      ¬ (gameLine 1 ∈ bannerLines (.obj [("events", .arr [.obj [],
          .obj [("competitions", .arr [.obj [("competitors", .arr [.obj [], .obj []])]])]])]) ++
        renderEvents 1 [.obj [],
          .obj [("competitions", .arr [.obj [("competitors", .arr [.obj [], .obj []])]])]]) := by
  have h := c10_game_index_is_position
    [("events", .arr [.obj [],
      .obj [("competitions", .arr [.obj [("competitors", .arr [.obj [], .obj []])]])]])]
    [.obj [], .obj [("competitions", .arr [.obj [("competitors", .arr [.obj [], .obj []])]])]]
    rfl (by simp) rfl rfl
  constructor
  · exact (h.2 1).mpr ⟨by decide, rfl⟩
  · intro hmem
    have hc := (h.2 0).mp hmem
    have : qualifies (Json.obj []) = false := rfl
    rw [List.getD_cons_zero] at hc
    rw [this] at hc
    exact absurd hc.2 (by decide)

/-! ## Lemmas about the fetcher and the orchestrator -/

/-- Claim C6: the fetcher performs exactly one request (no retry); any
transport failure or timeout, and any 4xx/5xx status, yields `none` paired
with a printed error line carrying the underlying cause instead of a raised
exception or a JSON value; a success status yields the parsed body. -/
theorem c6_fetch_one_call_and_failure (year : Int) (week : Option Int)
    (net : HttpRequest → NetResult) :
    (fetch_nfl_scoreboard year week net).2.1 = [scoreboardRequest week] ∧
      (∀ msg : String, net (scoreboardRequest week) = .transportError msg →
        (fetch_nfl_scoreboard year week net).1 = none ∧
          fetchErrorLine msg ∈ (fetch_nfl_scoreboard year week net).2.2) ∧
      (∀ r : NetResponse, net (scoreboardRequest week) = .response r →
        ((400 ≤ r.status ∧ r.status < 600) →
          (fetch_nfl_scoreboard year week net).1 = none ∧
            fetchErrorLine (httpErrorMsg r.status) ∈ (fetch_nfl_scoreboard year week net).2.2) ∧
          (¬ (400 ≤ r.status ∧ r.status < 600) →
            (fetch_nfl_scoreboard year week net).1 = some r.body)) := by
  cases hn : net (scoreboardRequest week) with
  | transportError msg =>
    refine ⟨?_, ?_, ?_⟩
    · simp [fetch_nfl_scoreboard, hn]
    · intro m hm
      injection hm with hmeq
      subst hmeq
      constructor
      · simp [fetch_nfl_scoreboard, hn]
      · simp [fetch_nfl_scoreboard, hn]
    · intro r hr
      exact absurd hr (by simp)
  | response r0 =>
    refine ⟨?_, ?_, ?_⟩
    · by_cases hs : 400 ≤ r0.status ∧ r0.status < 600 <;>
        simp [fetch_nfl_scoreboard, hn, hs]
    · intro m hm
      exact absurd hm (by simp)
    · intro r hr
      injection hr with hreq
      subst hreq
      constructor
      · intro hs
        constructor
        · simp [fetch_nfl_scoreboard, hn, hs]
        · simp [fetch_nfl_scoreboard, hn, hs]
      · intro hs
        simp [fetch_nfl_scoreboard, hn, hs]

/-- Witness for C6 at concrete transports: a timeout and a 404 both yield
`none` with the printed cause, a 200 yields the body, and exactly one
request is performed. -/
theorem c6_witness :
    (fetch_nfl_scoreboard 2024 none (fun _ => .transportError "timed out")).1 = none ∧
      fetchErrorLine "timed out" ∈
        (fetch_nfl_scoreboard 2024 none (fun _ => .transportError "timed out")).2.2 ∧
      (fetch_nfl_scoreboard 2024 none (fun _ => .transportError "timed out")).2.1 =
        [scoreboardRequest none] ∧
      (fetch_nfl_scoreboard 2024 none (fun _ => .response ⟨404, .obj []⟩)).1 = none ∧
      (fetch_nfl_scoreboard 2024 none (fun _ => .response ⟨200, .str "ok"⟩)).1 =
        some (.str "ok") := by
  have h1 := c6_fetch_one_call_and_failure 2024 none (fun _ => .transportError "timed out")
  have h2 := c6_fetch_one_call_and_failure 2024 none (fun _ => .response ⟨404, .obj []⟩)
  have h3 := c6_fetch_one_call_and_failure 2024 none (fun _ => .response ⟨200, .str "ok"⟩)
  exact ⟨(h1.2.1 "timed out" rfl).1, (h1.2.1 "timed out" rfl).2, h1.1,
    ((h2.2.2 _ rfl).1 (by decide)).1, (h3.2.2 _ rfl).2 (by decide)⟩

/-- Claim C8: `main` treats a successfully fetched but empty JSON object
exactly like a transport failure: it prints the failure notice and performs
no save, summary, or inspection step — every step of the run is a plain
print, just as in the transport-failure run. -/
theorem c8_empty_object_fetch_is_failure (net1 net2 : HttpRequest → NetResult)
    (ts : String) (msg : String)
    (h1 : net1 (scoreboardRequest none) = .response ⟨200, .obj []⟩)
    (h2 : net2 (scoreboardRequest none) = .transportError msg) :
    mainRun net1 ts =
      ((mainHeader ++ fetchIntro (scoreboardRequest none) ++ [fetchSuccessLine]).map
        MainStep.printLine) ++ [MainStep.printLine fetchFailedNotice] ∧
      mainRun net2 ts =
        ((mainHeader ++ fetchIntro (scoreboardRequest none) ++ [fetchErrorLine msg]).map
          MainStep.printLine) ++ [MainStep.printLine fetchFailedNotice] ∧
      (mainRun net1 ts).all MainStep.isPrint = true ∧
      (mainRun net2 ts).all MainStep.isPrint = true := by
  have e1 : fetch_nfl_scoreboard 2024 none net1 =
      (some (Json.obj []), [scoreboardRequest none],
        fetchIntro (scoreboardRequest none) ++ [fetchSuccessLine]) := by
    simp [fetch_nfl_scoreboard, h1]
  have e2 : fetch_nfl_scoreboard 2024 none net2 =
      (none, [scoreboardRequest none],
        fetchIntro (scoreboardRequest none) ++ [fetchErrorLine msg]) := by
    simp [fetch_nfl_scoreboard, h2]
  have ha1 : mainRun net1 ts =
      ((mainHeader ++ fetchIntro (scoreboardRequest none) ++ [fetchSuccessLine]).map
        MainStep.printLine) ++ [MainStep.printLine fetchFailedNotice] := by
    simp [mainRun, e1, truthy]
  have ha2 : mainRun net2 ts =
      ((mainHeader ++ fetchIntro (scoreboardRequest none) ++ [fetchErrorLine msg]).map
        MainStep.printLine) ++ [MainStep.printLine fetchFailedNotice] := by
    simp [mainRun, e2]
  refine ⟨ha1, ha2, ?_, ?_⟩
  · rw [ha1]
    simp [MainStep.isPrint]
  · rw [ha2]
    simp [MainStep.isPrint]

/-- Witness for C8: an empty-object 200 response and a transport failure
both end in a print-only run with the failure notice. -/
theorem c8_witness :
    mainRun (fun _ => .response ⟨200, .obj []⟩) "20240101_000000" =
      ((mainHeader ++ fetchIntro (scoreboardRequest none) ++ [fetchSuccessLine]).map
        MainStep.printLine) ++ [MainStep.printLine fetchFailedNotice] ∧
      (mainRun (fun _ => .transportError "boom") "20240101_000000").all MainStep.isPrint = true := by
  have h := c8_empty_object_fetch_is_failure (fun _ => .response ⟨200, .obj []⟩)
    (fun _ => .transportError "boom") "20240101_000000" "boom" rfl rfl
  exact ⟨h.1, h.2.2.2⟩

/-! ## Lemmas for the persister round-trip -/

theorem takeDigits_exact (ds : List Char) (hds : ∀ c ∈ ds, c.isDigit = true) :
    ∀ rest : List Char, (∀ c, rest.head? = some c → c.isDigit = false) →
    takeDigits (ds ++ rest) = (ds, rest) := by
  induction ds with
  | nil =>
    intro rest hr
    cases rest with
    | nil => rfl
    | cons c r =>
      have := hr c rfl
      simp [takeDigits, this]
  | cons c t ih =>
    intro rest hr
    have hc : c.isDigit = true := hds c (by simp)
    simp only [List.cons_append, takeDigits, hc, if_pos, List.append_eq]
    rw [ih (fun x hx => hds x (by simp [hx])) rest hr]

theorem parseIntDigits_natChars (n : Nat) (rest : List Char)
    (hd : ∀ c, rest.head? = some c → c.isDigit = false) (hf : floatStart rest = false) :
    parseIntDigits (natChars n ++ rest) = some (n, rest) := by
  unfold parseIntDigits
  rw [takeDigits_exact (natChars n) (natChars_digits n) rest hd]
  cases hnc : natChars n with
  | nil => exact absurd hnc (natChars_ne_nil n)
  | cons d ds =>
    have hval : digitsToNat (d :: ds) = n := by
      rw [← hnc]
      exact digitsToNat_natChars n
    by_cases hd0 : d = '0'
    · subst hd0
      have hn0 : n = 0 := natChars_head_zero n '0' ds hnc rfl
      have hds : ds = [] := by
        rw [hn0, natChars_lt 0 (by omega)] at hnc
        cases hnc
        rfl
      subst hds
      simp [hf, hval]
    · simp [hf, hd0, hval]

theorem isJsonWs_digit (c : Char) (h : c.isDigit = true) : isJsonWs c = false := by
  unfold isJsonWs
  by_cases h1 : c = ' '
  · subst h1; simp [Char.isDigit] at h
  by_cases h2 : c = '\t'
  · subst h2; simp [Char.isDigit] at h
  by_cases h3 : c = '\n'
  · subst h3; simp [Char.isDigit] at h
  by_cases h4 : c = '\r'
  · subst h4; simp [Char.isDigit] at h
  simp [h1, h2, h3, h4]

theorem digit_ne_lbrace (c : Char) (h : c.isDigit = true) : c ≠ lbrace := by
  intro he
  subst he
  simp [Char.isDigit, lbrace] at h

theorem digit_ne_rbracket (c : Char) (h : c.isDigit = true) : c ≠ ']' := by
  intro he
  subst he
  simp [Char.isDigit] at h

theorem digit_ne_comma (c : Char) (h : c.isDigit = true) : c ≠ ',' := by
  intro he
  subst he
  simp [Char.isDigit] at h

theorem hexVal_hexDigitChar (d : Nat) (h : d < 16) : hexVal (hexDigitChar d) = some d := by
  interval_cases d <;> decide

theorem parseStringBody_quote (rest : List Char) :
    parseStringBody ('"' :: rest) = some ([], rest) := by
  unfold parseStringBody
  rw [if_pos rfl]

theorem parseStringBody_raw (c : Char) (h1 : ¬ c = '"') (h2 : ¬ c = '\\')
    (h3 : ¬ c.toNat < 32) (cs content r : List Char)
    (hcs : parseStringBody cs = some (content, r)) :
    parseStringBody (c :: cs) = some (c :: content, r) := by
  rw [parseStringBody.eq_def]
  dsimp only []
  rw [if_neg h1, if_neg h2, if_neg h3, hcs]

theorem parseStringBody_escaped (e ch : Char) (hu : unescapeChar e = some ch)
    (he : ¬ e = 'u') (cs content r : List Char)
    (hcs : parseStringBody cs = some (content, r)) :
    parseStringBody ('\\' :: e :: cs) = some (ch :: content, r) := by
  rw [parseStringBody.eq_def]
  dsimp only []
  rw [if_neg (by decide), if_pos rfl, if_neg he, hu, hcs]

theorem parseStringBody_unicode (h1 h2 h3 h4 : Char) (v1 v2 v3 v4 : Nat)
    (e1 : hexVal h1 = some v1) (e2 : hexVal h2 = some v2)
    (e3 : hexVal h3 = some v3) (e4 : hexVal h4 = some v4)
    (hn : ((v1 * 16 + v2) * 16 + v3) * 16 + v4 < 55296)
    (cs content r : List Char) (hcs : parseStringBody cs = some (content, r)) :
    parseStringBody ('\\' :: 'u' :: h1 :: h2 :: h3 :: h4 :: cs) =
      some (Char.ofNat (((v1 * 16 + v2) * 16 + v3) * 16 + v4) :: content, r) := by
  rw [parseStringBody.eq_def]
  dsimp only []
  rw [if_neg (by decide), if_pos rfl, if_pos rfl, e1, e2, e3, e4]
  dsimp only []
  rw [if_pos (by simp; omega), hcs]

theorem escChar_roundtrip (l : List Char) : ∀ rest : List Char,
    parseStringBody (l.flatMap escChar ++ '"' :: rest) = some (l, rest) := by
  induction l with
  | nil =>
    intro rest
    simp only [List.flatMap_nil, List.nil_append]
    exact parseStringBody_quote rest
  | cons c t ih =>
    intro rest
    simp only [List.flatMap_cons, List.append_assoc]
    by_cases h1 : c = '"'
    · subst h1
      exact parseStringBody_escaped '"' '"' rfl (by decide) _ t rest (ih rest)
    · by_cases h2 : c = '\\'
      · subst h2
        exact parseStringBody_escaped '\\' '\\' rfl (by decide) _ t rest (ih rest)
      · by_cases h3 : c = Char.ofNat 8
        · subst h3
          exact parseStringBody_escaped 'b' (Char.ofNat 8) rfl (by decide) _ t rest (ih rest)
        · by_cases h4 : c = Char.ofNat 9
          · subst h4
            exact parseStringBody_escaped 't' (Char.ofNat 9) rfl (by decide) _ t rest (ih rest)
          · by_cases h5 : c = Char.ofNat 10
            · subst h5
              exact parseStringBody_escaped 'n' (Char.ofNat 10) rfl (by decide) _ t rest (ih rest)
            · by_cases h6 : c = Char.ofNat 12
              · subst h6
                exact parseStringBody_escaped 'f' (Char.ofNat 12) rfl (by decide) _ t rest (ih rest)
              · by_cases h7 : c = Char.ofNat 13
                · subst h7
                  exact parseStringBody_escaped 'r' (Char.ofNat 13) rfl (by decide) _ t rest (ih rest)
                · by_cases h8 : c.toNat < 32
                  · have hesc : escChar c = ['\\', 'u', '0', '0',
                        hexDigitChar (c.toNat / 16), hexDigitChar (c.toNat % 16)] := by
                      unfold escChar
                      rw [if_neg h1, if_neg h2, if_neg h3, if_neg h4, if_neg h5, if_neg h6,
                        if_neg h7, if_pos h8]
                    rw [hesc]
                    have hstep := parseStringBody_unicode '0' '0'
                      (hexDigitChar (c.toNat / 16)) (hexDigitChar (c.toNat % 16))
                      0 0 (c.toNat / 16) (c.toNat % 16) (by decide) (by decide)
                      (hexVal_hexDigitChar (c.toNat / 16) (by omega))
                      (hexVal_hexDigitChar (c.toNat % 16) (by omega)) (by omega)
                      _ t rest (ih rest)
                    have hch : Char.ofNat (((0 * 16 + 0) * 16 + c.toNat / 16) * 16 +
                        c.toNat % 16) = c := by
                      have heq : ((0 * 16 + 0) * 16 + c.toNat / 16) * 16 + c.toNat % 16
                          = c.toNat := by omega
                      rw [heq]
                      exact Char.ofNat_toNat c
                    rw [hch] at hstep
                    exact hstep
                  · have hesc : escChar c = [c] := by
                      unfold escChar
                      rw [if_neg h1, if_neg h2, if_neg h3, if_neg h4, if_neg h5, if_neg h6,
                        if_neg h7, if_neg h8]
                    rw [hesc]
                    exact parseStringBody_raw c h1 h2 h8 _ t rest (ih rest)

theorem skipWs_spaces (n : Nat) : ∀ cs : List Char,
    skipWs (List.replicate n ' ' ++ cs) = skipWs cs := by
  induction n with
  | zero => intro cs; rfl
  | succ m ih =>
    intro cs
    rw [List.replicate_succ, List.cons_append]
    show skipWs (' ' :: (List.replicate m ' ' ++ cs)) = skipWs cs
    rw [show skipWs (' ' :: (List.replicate m ' ' ++ cs))
      = skipWs (List.replicate m ' ' ++ cs) from by simp [skipWs, isJsonWs]]
    exact ih cs

theorem skipWs_nlIndent (lvl : Nat) (cs : List Char) :
    skipWs (nlIndent lvl ++ cs) = skipWs cs := by
  unfold nlIndent
  rw [List.cons_append]
  rw [show skipWs ('\n' :: (List.replicate (2 * lvl) ' ' ++ cs))
    = skipWs (List.replicate (2 * lvl) ' ' ++ cs) from by simp [skipWs, isJsonWs]]
  exact skipWs_spaces (2 * lvl) cs

theorem skipWs_nonWs (c : Char) (h : isJsonWs c = false) (cs : List Char) :
    skipWs (c :: cs) = c :: cs := by
  simp [skipWs, h]

theorem dumpVal_cons (j : Json) (lvl : Nat) :
    ∃ c t, dumpVal j lvl = c :: t ∧ isJsonWs c = false ∧ c ≠ ']' ∧ c ≠ ',' := by
  have hnum : ∀ i : Int, ∃ c t, intChars i = c :: t ∧ isJsonWs c = false ∧
      c ≠ ']' ∧ c ≠ ',' := by
    intro i
    unfold intChars
    by_cases hneg : i < 0
    · rw [if_pos hneg]
      refine ⟨'-', natChars i.natAbs, rfl, ?_, ?_, ?_⟩ <;> decide
    · rw [if_neg hneg]
      cases hnc : natChars i.natAbs with
      | nil => exact absurd hnc (natChars_ne_nil _)
      | cons c t =>
        have hdig : c.isDigit = true := natChars_digits i.natAbs c (by rw [hnc]; simp)
        exact ⟨c, t, rfl, isJsonWs_digit c hdig, digit_ne_rbracket c hdig,
          digit_ne_comma c hdig⟩
  cases j with
  | num i => exact hnum i
  | null => refine ⟨'n', _, rfl, ?_, ?_, ?_⟩ <;> decide
  | bool b =>
    cases b with
    | false => refine ⟨'f', _, rfl, ?_, ?_, ?_⟩ <;> decide
    | true => refine ⟨'t', _, rfl, ?_, ?_, ?_⟩ <;> decide
  | str s => refine ⟨'"', _, rfl, ?_, ?_, ?_⟩ <;> decide
  | arr xs =>
    cases xs with
    | nil => refine ⟨'[', _, rfl, ?_, ?_, ?_⟩ <;> decide
    | cons x rest => refine ⟨'[', _, rfl, ?_, ?_, ?_⟩ <;> decide
  | obj kvs =>
    cases kvs with
    | nil => refine ⟨Char.ofNat 123, _, rfl, ?_, ?_, ?_⟩ <;> decide
    | cons kv rest => refine ⟨Char.ofNat 123, _, rfl, ?_, ?_, ?_⟩ <;> decide

theorem parseVal_space (fuel : Nat) (cs : List Char) :
    parseVal fuel (' ' :: cs) = parseVal fuel cs := by
  cases fuel with
  | zero => rfl
  | succ f =>
    show parseVal (f + 1) (' ' :: cs) = parseVal (f + 1) cs
    unfold parseVal
    rw [show skipWs (' ' :: cs) = skipWs cs from by simp [skipWs, isJsonWs]]

theorem restHead_arrTail (xs : List Json) (lvl lvl2 : Nat) (rest : List Char) :
    (∀ c, (dumpArrTail xs lvl ++ (nlIndent lvl2 ++ ']' :: rest)).head? = some c →
      c.isDigit = false) ∧
    floatStart (dumpArrTail xs lvl ++ (nlIndent lvl2 ++ ']' :: rest)) = false := by
  cases xs with
  | nil =>
    constructor
    · intro c hc
      simp only [dumpArrTail, List.nil_append, nlIndent, List.cons_append,
        List.head?_cons, Option.some.injEq] at hc
      subst hc
      decide
    · simp [dumpArrTail, nlIndent, floatStart]
  | cons x xs2 =>
    constructor
    · intro c hc
      simp only [dumpArrTail, List.cons_append, List.head?_cons, Option.some.injEq] at hc
      subst hc
      decide
    · simp [dumpArrTail, floatStart]

theorem restHead_objTail (kvs : List (String × Json)) (lvl lvl2 : Nat) (rest : List Char) :
    (∀ c, (dumpObjTail kvs lvl ++ (nlIndent lvl2 ++ rbrace :: rest)).head? = some c →
      c.isDigit = false) ∧
    floatStart (dumpObjTail kvs lvl ++ (nlIndent lvl2 ++ rbrace :: rest)) = false := by
  cases kvs with
  | nil =>
    constructor
    · intro c hc
      simp only [dumpObjTail, List.nil_append, nlIndent, List.cons_append,
        List.head?_cons, Option.some.injEq] at hc
      subst hc
      decide
    · simp [dumpObjTail, nlIndent, floatStart]
  | cons kv kvs2 =>
    constructor
    · intro c hc
      rw [show dumpObjTail (kv :: kvs2) lvl = ',' :: (nlIndent lvl ++ dumpMember kv lvl ++
        dumpObjTail kvs2 lvl) from by cases kv; rfl] at hc
      simp only [List.cons_append, List.head?_cons, Option.some.injEq] at hc
      subst hc
      decide
    · rw [show dumpObjTail (kv :: kvs2) lvl = ',' :: (nlIndent lvl ++ dumpMember kv lvl ++
        dumpObjTail kvs2 lvl) from by cases kv; rfl]
      simp [floatStart]

theorem parseVal_nl (fuel l : Nat) (cs : List Char) :
    parseVal fuel (nlIndent l ++ cs) = parseVal fuel cs := by
  cases fuel with
  | zero => rfl
  | succ f =>
    rw [parseVal.eq_def]
    conv_rhs => rw [parseVal.eq_def]
    dsimp only []
    rw [skipWs_nlIndent]

mutual

theorem rt_val : ∀ (j : Json) (lvl : Nat) (rest : List Char) (fuel : Nat),
    (dumpVal j lvl).length < fuel →
    (∀ c, rest.head? = some c → c.isDigit = false) →
    floatStart rest = false →
    parseVal fuel (dumpVal j lvl ++ rest) = some (j, rest)
  | .null, lvl, rest, fuel, hf, _hd, _hfl => by
    cases fuel with
    | zero => exact absurd hf (by omega)
    | succ f => rfl
  | .bool true, lvl, rest, fuel, hf, _hd, _hfl => by
    cases fuel with
    | zero => exact absurd hf (by omega)
    | succ f => rfl
  | .bool false, lvl, rest, fuel, hf, _hd, _hfl => by
    cases fuel with
    | zero => exact absurd hf (by omega)
    | succ f => rfl
  | .num i, lvl, rest, fuel, hf, hd, hfl => by
    cases fuel with
    | zero => exact absurd hf (by omega)
    | succ f =>
      by_cases hneg : i < 0
      · have hdump : dumpVal (.num i) lvl = '-' :: natChars i.natAbs := by
          show intChars i = _
          unfold intChars
          rw [if_pos hneg]
        rw [hdump]
        cases hnc : natChars i.natAbs with
        | nil => exact absurd hnc (natChars_ne_nil _)
        | cons c2 rs =>
          rw [List.cons_append, List.cons_append]
          have hstep : parseVal (f + 1) ('-' :: c2 :: (rs ++ rest)) =
              (match parseIntDigits (c2 :: (rs ++ rest)) with
               | some (n, r2) => some (Json.num (-(n : Int)), r2)
               | none => none) := rfl
          rw [hstep, ← List.cons_append, ← hnc,
            parseIntDigits_natChars i.natAbs rest hd hfl]
          have hv : -((i.natAbs : Nat) : Int) = i := by omega
          dsimp only []
          rw [hv]
      · have hdump : dumpVal (.num i) lvl = natChars i.natAbs := by
          show intChars i = _
          unfold intChars
          rw [if_neg hneg]
        rw [hdump]
        cases hnc : natChars i.natAbs with
        | nil => exact absurd hnc (natChars_ne_nil _)
        | cons c2 rs =>
          have hdig : c2.isDigit = true := natChars_digits _ c2 (by rw [hnc]; simp)
          rw [List.cons_append]
          rw [parseVal.eq_def]
          dsimp only []
          rw [skipWs_nonWs c2 (isJsonWs_digit c2 hdig)]
          dsimp only []
          rw [if_neg (digit_ne_lbrace c2 hdig), if_pos hdig]
          rw [← List.cons_append, ← hnc, parseIntDigits_natChars i.natAbs rest hd hfl]
          have hv : ((i.natAbs : Nat) : Int) = i := by omega
          dsimp only []
          rw [hv]
  | .str s, lvl, rest, fuel, hf, _hd, _hfl => by
    cases fuel with
    | zero => exact absurd hf (by omega)
    | succ f =>
      have hdump : dumpVal (.str s) lvl = '"' :: (s.data.flatMap escChar ++ ['"']) := rfl
      rw [hdump, List.cons_append]
      have hstep : parseVal (f + 1) ('"' :: ((s.data.flatMap escChar ++ ['"']) ++ rest)) =
          (match parseStringBody ((s.data.flatMap escChar ++ ['"']) ++ rest) with
           | some (content, r2) => some (Json.str (String.mk content), r2)
           | none => none) := rfl
      rw [hstep,
        show (s.data.flatMap escChar ++ ['"']) ++ rest
          = s.data.flatMap escChar ++ ('"' :: rest) from by simp,
        escChar_roundtrip s.data rest]
  | .arr [], lvl, rest, fuel, hf, _hd, _hfl => by
    cases fuel with
    | zero => exact absurd hf (by omega)
    | succ f =>
      cases f with
      | zero =>
        have hl : (dumpVal (.arr []) lvl).length = 2 := rfl
        rw [hl] at hf
        exact absurd hf (by omega)
      | succ f2 => rfl
  | .arr (x :: xs), lvl, rest, fuel, hf, _hd, _hfl => by
    have hshape : dumpVal (.arr (x :: xs)) lvl = '[' :: (nlIndent (lvl + 1) ++
        dumpVal x (lvl + 1) ++ dumpArrTail xs (lvl + 1) ++ nlIndent lvl ++ [']']) := rfl
    rw [hshape] at hf ⊢
    have hlen : ('[' :: (nlIndent (lvl + 1) ++ dumpVal x (lvl + 1) ++
        dumpArrTail xs (lvl + 1) ++ nlIndent lvl ++ [']'])).length
        = 1 + ((nlIndent (lvl + 1)).length + ((dumpVal x (lvl + 1)).length +
          ((dumpArrTail xs (lvl + 1)).length + ((nlIndent lvl).length + 1)))) := by
      simp only [List.length_append, List.length_cons, List.length_nil]
      omega
    rw [hlen] at hf
    cases fuel with
    | zero => exact absurd hf (by omega)
    | succ f =>
      rw [List.cons_append]
      have hstep : parseVal (f + 1) ('[' :: ((nlIndent (lvl + 1) ++ dumpVal x (lvl + 1) ++
          dumpArrTail xs (lvl + 1) ++ nlIndent lvl ++ [']']) ++ rest)) =
          parseArrBody f ((nlIndent (lvl + 1) ++ dumpVal x (lvl + 1) ++
            dumpArrTail xs (lvl + 1) ++ nlIndent lvl ++ [']']) ++ rest) := rfl
      rw [hstep,
        show (nlIndent (lvl + 1) ++ dumpVal x (lvl + 1) ++ dumpArrTail xs (lvl + 1) ++
            nlIndent lvl ++ [']']) ++ rest
          = nlIndent (lvl + 1) ++ (dumpVal x (lvl + 1) ++ (dumpArrTail xs (lvl + 1) ++
            (nlIndent lvl ++ (']' :: rest)))) from by simp]
      cases f with
      | zero => exact absurd hf (by omega)
      | succ f2 =>
        rw [parseArrBody.eq_def]
        dsimp only []
        rw [skipWs_nlIndent (lvl + 1)]
        obtain ⟨c, t, hcons, hws, hbr, _⟩ := dumpVal_cons x (lvl + 1)
        rw [hcons, List.cons_append, skipWs_nonWs c hws]
        dsimp only []
        rw [if_neg hbr, ← List.cons_append, ← hcons,
          rt_val x (lvl + 1)
            (dumpArrTail xs (lvl + 1) ++ (nlIndent lvl ++ (']' :: rest))) f2
            (by omega)
            (restHead_arrTail xs (lvl + 1) lvl rest).1
            (restHead_arrTail xs (lvl + 1) lvl rest).2]
        dsimp only []
        rw [rt_arrTail xs lvl rest f2 (by omega)]
  | .obj [], lvl, rest, fuel, hf, _hd, _hfl => by
    cases fuel with
    | zero => exact absurd hf (by omega)
    | succ f =>
      cases f with
      | zero =>
        have hl : (dumpVal (.obj []) lvl).length = 2 := rfl
        rw [hl] at hf
        exact absurd hf (by omega)
      | succ f2 => rfl
  | .obj ((k, v) :: kvs), lvl, rest, fuel, hf, _hd, _hfl => by
    have hshape : dumpVal (.obj ((k, v) :: kvs)) lvl = Char.ofNat 123 ::
        (nlIndent (lvl + 1) ++ dumpMember (k, v) (lvl + 1) ++ dumpObjTail kvs (lvl + 1) ++
          nlIndent lvl ++ [Char.ofNat 125]) := rfl
    rw [hshape] at hf ⊢
    have hlen : (Char.ofNat 123 :: (nlIndent (lvl + 1) ++ dumpMember (k, v) (lvl + 1) ++
        dumpObjTail kvs (lvl + 1) ++ nlIndent lvl ++ [Char.ofNat 125])).length
        = 1 + ((nlIndent (lvl + 1)).length + ((dumpMember (k, v) (lvl + 1)).length +
          ((dumpObjTail kvs (lvl + 1)).length + ((nlIndent lvl).length + 1)))) := by
      simp only [List.length_append, List.length_cons, List.length_nil]
      omega
    have hmlen : (dumpMember (k, v) (lvl + 1)).length
        = (dumpStr k).length + (2 + (dumpVal v (lvl + 1)).length) := by
      show (dumpStr k ++ ':' :: ' ' :: dumpVal v (lvl + 1)).length = _
      simp only [List.length_append, List.length_cons]
      omega
    rw [hlen] at hf
    rw [hmlen] at hf
    cases fuel with
    | zero => exact absurd hf (by omega)
    | succ f =>
      rw [List.cons_append]
      have hstep : parseVal (f + 1) (Char.ofNat 123 :: ((nlIndent (lvl + 1) ++
          dumpMember (k, v) (lvl + 1) ++ dumpObjTail kvs (lvl + 1) ++ nlIndent lvl ++
          [Char.ofNat 125]) ++ rest)) =
          parseObjBody f ((nlIndent (lvl + 1) ++ dumpMember (k, v) (lvl + 1) ++
            dumpObjTail kvs (lvl + 1) ++ nlIndent lvl ++ [Char.ofNat 125]) ++ rest) := rfl
      rw [hstep,
        show (nlIndent (lvl + 1) ++ dumpMember (k, v) (lvl + 1) ++ dumpObjTail kvs (lvl + 1) ++
            nlIndent lvl ++ [Char.ofNat 125]) ++ rest
          = nlIndent (lvl + 1) ++ ('"' :: (k.data.flatMap escChar ++ ('"' :: (':' :: (' ' ::
            (dumpVal v (lvl + 1) ++ (dumpObjTail kvs (lvl + 1) ++ (nlIndent lvl ++
              (Char.ofNat 125 :: rest))))))))) from by simp [dumpMember, dumpStr]]
      cases f with
      | zero => exact absurd hf (by omega)
      | succ f2 =>
        rw [parseObjBody.eq_def]
        dsimp only []
        rw [skipWs_nlIndent (lvl + 1), skipWs_nonWs '"' (by decide)]
        dsimp only []
        rw [if_neg (by decide), if_pos rfl,
          escChar_roundtrip k.data (':' :: (' ' :: (dumpVal v (lvl + 1) ++
            (dumpObjTail kvs (lvl + 1) ++ (nlIndent lvl ++ (Char.ofNat 125 :: rest))))))]
        dsimp only []
        rw [skipWs_nonWs ':' (by decide)]
        dsimp only []
        rw [if_pos rfl, parseVal_space,
          rt_val v (lvl + 1)
            (dumpObjTail kvs (lvl + 1) ++ (nlIndent lvl ++ (Char.ofNat 125 :: rest))) f2
            (by omega)
            (restHead_objTail kvs (lvl + 1) lvl rest).1
            (restHead_objTail kvs (lvl + 1) lvl rest).2]
        dsimp only []
        rw [rt_objTail kvs lvl rest f2 (by omega)]
termination_by j _ _ _ _ _ _ => sizeOf j

theorem rt_arrTail : ∀ (xs : List Json) (lvl : Nat) (rest : List Char) (fuel : Nat),
    (dumpArrTail xs (lvl + 1)).length + (nlIndent lvl).length + 1 ≤ fuel →
    parseArrTail fuel (dumpArrTail xs (lvl + 1) ++ (nlIndent lvl ++ ']' :: rest))
      = some (xs, rest)
  | [], lvl, rest, fuel, hf => by
    cases fuel with
    | zero => exact absurd hf (by omega)
    | succ f =>
      rw [show dumpArrTail [] (lvl + 1) ++ (nlIndent lvl ++ ']' :: rest)
        = nlIndent lvl ++ (']' :: rest) from by simp [dumpArrTail]]
      rw [parseArrTail.eq_def]
      dsimp only []
      rw [skipWs_nlIndent lvl, skipWs_nonWs ']' (by decide)]
      dsimp only []
      rw [if_pos rfl]
  | x :: xs, lvl, rest, fuel, hf => by
    have hshape : dumpArrTail (x :: xs) (lvl + 1) = ',' :: (nlIndent (lvl + 1) ++
        dumpVal x (lvl + 1) ++ dumpArrTail xs (lvl + 1)) := rfl
    rw [hshape] at hf ⊢
    have hlen : (',' :: (nlIndent (lvl + 1) ++ dumpVal x (lvl + 1) ++
        dumpArrTail xs (lvl + 1))).length
        = 1 + ((nlIndent (lvl + 1)).length + ((dumpVal x (lvl + 1)).length +
          (dumpArrTail xs (lvl + 1)).length)) := by
      simp only [List.length_append, List.length_cons]
      omega
    rw [hlen] at hf
    cases fuel with
    | zero => exact absurd hf (by omega)
    | succ f =>
      rw [List.cons_append,
        show (nlIndent (lvl + 1) ++ dumpVal x (lvl + 1) ++ dumpArrTail xs (lvl + 1)) ++
            (nlIndent lvl ++ ']' :: rest)
          = nlIndent (lvl + 1) ++ (dumpVal x (lvl + 1) ++ (dumpArrTail xs (lvl + 1) ++
            (nlIndent lvl ++ (']' :: rest)))) from by simp]
      rw [parseArrTail.eq_def]
      dsimp only []
      rw [skipWs_nonWs ',' (by decide)]
      dsimp only []
      rw [if_neg (by decide), if_pos rfl, parseVal_nl,
        rt_val x (lvl + 1)
          (dumpArrTail xs (lvl + 1) ++ (nlIndent lvl ++ (']' :: rest))) f
          (by omega)
          (restHead_arrTail xs (lvl + 1) lvl rest).1
          (restHead_arrTail xs (lvl + 1) lvl rest).2]
      dsimp only []
      rw [rt_arrTail xs lvl rest f (by omega)]
termination_by xs _ _ _ _ => sizeOf xs

theorem rt_objTail : ∀ (kvs : List (String × Json)) (lvl : Nat) (rest : List Char) (fuel : Nat),
    (dumpObjTail kvs (lvl + 1)).length + (nlIndent lvl).length + 1 ≤ fuel →
    parseObjTail fuel (dumpObjTail kvs (lvl + 1) ++ (nlIndent lvl ++ Char.ofNat 125 :: rest))
      = some (kvs, rest)
  | [], lvl, rest, fuel, hf => by
    cases fuel with
    | zero => exact absurd hf (by omega)
    | succ f =>
      rw [show dumpObjTail [] (lvl + 1) ++ (nlIndent lvl ++ Char.ofNat 125 :: rest)
        = nlIndent lvl ++ (Char.ofNat 125 :: rest) from by simp [dumpObjTail]]
      rw [parseObjTail.eq_def]
      dsimp only []
      rw [skipWs_nlIndent lvl, skipWs_nonWs (Char.ofNat 125) (by decide)]
      dsimp only []
      rw [if_pos (show Char.ofNat 125 = rbrace from rfl)]
  | (k, v) :: kvs, lvl, rest, fuel, hf => by
    have hshape : dumpObjTail ((k, v) :: kvs) (lvl + 1) = ',' :: (nlIndent (lvl + 1) ++
        dumpMember (k, v) (lvl + 1) ++ dumpObjTail kvs (lvl + 1)) := rfl
    rw [hshape] at hf ⊢
    have hlen : (',' :: (nlIndent (lvl + 1) ++ dumpMember (k, v) (lvl + 1) ++
        dumpObjTail kvs (lvl + 1))).length
        = 1 + ((nlIndent (lvl + 1)).length + ((dumpMember (k, v) (lvl + 1)).length +
          (dumpObjTail kvs (lvl + 1)).length)) := by
      simp only [List.length_append, List.length_cons]
      omega
    have hmlen : (dumpMember (k, v) (lvl + 1)).length
        = (dumpStr k).length + (2 + (dumpVal v (lvl + 1)).length) := by
      show (dumpStr k ++ ':' :: ' ' :: dumpVal v (lvl + 1)).length = _
      simp only [List.length_append, List.length_cons]
      omega
    rw [hlen] at hf
    rw [hmlen] at hf
    cases fuel with
    | zero => exact absurd hf (by omega)
    | succ f =>
      rw [List.cons_append,
        show (nlIndent (lvl + 1) ++ dumpMember (k, v) (lvl + 1) ++
            dumpObjTail kvs (lvl + 1)) ++ (nlIndent lvl ++ Char.ofNat 125 :: rest)
          = nlIndent (lvl + 1) ++ ('"' :: (k.data.flatMap escChar ++ ('"' :: (':' :: (' ' ::
            (dumpVal v (lvl + 1) ++ (dumpObjTail kvs (lvl + 1) ++ (nlIndent lvl ++
              (Char.ofNat 125 :: rest))))))))) from by simp [dumpMember, dumpStr]]
      rw [parseObjTail.eq_def]
      dsimp only []
      rw [skipWs_nonWs ',' (by decide)]
      dsimp only []
      rw [if_neg (by decide), if_pos rfl, skipWs_nlIndent (lvl + 1),
        skipWs_nonWs '"' (by decide)]
      dsimp only []
      rw [if_pos rfl,
        escChar_roundtrip k.data (':' :: (' ' :: (dumpVal v (lvl + 1) ++
          (dumpObjTail kvs (lvl + 1) ++ (nlIndent lvl ++ (Char.ofNat 125 :: rest))))))]
      dsimp only []
      rw [skipWs_nonWs ':' (by decide)]
      dsimp only []
      rw [if_pos rfl, parseVal_space,
        rt_val v (lvl + 1)
          (dumpObjTail kvs (lvl + 1) ++ (nlIndent lvl ++ (Char.ofNat 125 :: rest))) f
          (by omega)
          (restHead_objTail kvs (lvl + 1) lvl rest).1
          (restHead_objTail kvs (lvl + 1) lvl rest).2]
      dsimp only []
      rw [rt_objTail kvs lvl rest f (by omega)]
termination_by kvs _ _ _ _ => sizeOf kvs

end

/-- Claim C5: the Persister's file round-trips — parsing the written file
contents (2-space-indented, non-ASCII kept literal) recovers the saved
document exactly, for every document and every filename. -/
theorem c5_save_roundtrip (doc : Json) (filename : String) :
    loads (save_raw_response doc filename).2 = some doc := by
  show loads (dumps doc) = some doc
  have h := rt_val doc 0 [] ((dumpVal doc 0).length + 1) (by omega)
    (fun c hc => by simp at hc) rfl
  rw [List.append_nil] at h
  unfold loads dumps
  rw [show (String.mk (dumpVal doc 0)).data = dumpVal doc 0 from rfl, h]
  rfl

/-! ## Lemmas about the inspector -/

theorem pyKeys_isObj (j : Json) (hj : isObj j = true) : pyKeys j = .ok (objKeys j) := by
  cases j <;> first | rfl | simp [isObj] at hj

theorem pyContains_obj (kvs : List (String × Json)) (k : String) :
    pyContains (.obj kvs) k = .ok (kvs.any (fun p => p.1 == k)) := rfl

theorem pySubscript_obj (kvs : List (String × Json)) (k : String) (v : Json)
    (h : List.lookup k kvs = some v) : pySubscript (.obj kvs) k = .ok v := by
  simp [pySubscript, h]

/-- Claim C7: on any document whose reached levels have the shapes the
inspector indexes into (fields may be absent or empty anywhere), the
inspector raises no exception and prints exactly the levels whose parent
field exists and is non-empty; absence at any level stops the descent. -/
theorem c7_inspector_stops_at_absence (d : Json) (hs : inspectSafe d = true) :
    inspect_data_structure d = .ok (inspectReached d) := by
  cases d with
  | null => simp [inspectSafe, isObj] at hs
  | bool b => simp [inspectSafe, isObj] at hs
  | num n => simp [inspectSafe, isObj] at hs
  | str s => simp [inspectSafe, isObj] at hs
  | arr xs => simp [inspectSafe, isObj] at hs
  | obj kvs =>
    unfold inspectSafe at hs
    simp only [isObj, Bool.true_and, jlookup] at hs
    unfold inspect_data_structure
    rw [pyKeys_isObj (.obj kvs) rfl]
    simp only [exceptOk_bind, pyContains_obj]
    cases hev : List.lookup "events" kvs with
    | none =>
      rw [hev] at hs
      rw [if_neg (by simp [lookup_none_any kvs "events" hev])]
      simp [exceptOk_bind, exceptPure, inspectReached, eventSection, objKeys, jlookup, hev]
    | some ev =>
      rw [hev] at hs
      rw [if_pos (by simp [lookup_some_any kvs "events" ev hev])]
      rw [pySubscript_obj kvs "events" ev hev]
      simp only [exceptOk_bind]
      by_cases htr : truthy ev = true
      · simp only [htr, Bool.not_true, Bool.false_or] at hs
        rw [if_pos htr]
        cases ev with
        | arr exs =>
          cases exs with
          | nil => simp [truthy] at htr
          | cons e erest =>
            have hsplit := bool_and_split _ _ hs
            have hiobj : isObj e = true := hsplit.1
            have hs2 := hsplit.2
            cases e with
            | obj ekvs =>
              simp only [pyIndex0, exceptOk_bind]
              rw [pyKeys_isObj (.obj ekvs) rfl]
              simp only [exceptOk_bind, pyContains_obj]
              simp only [jlookup] at hs2
              cases hcomp : List.lookup "competitions" ekvs with
              | none =>
                rw [hcomp] at hs2
                rw [if_neg (by simp [lookup_none_any ekvs "competitions" hcomp])]
                simp [exceptOk_bind, exceptPure, inspectReached, eventSection, competitionSection, first0, objKeys,
                  jlookup, hev, hcomp, htr]
              | some comps =>
                rw [hcomp] at hs2
                rw [if_pos (by simp [lookup_some_any ekvs "competitions" comps hcomp])]
                rw [pySubscript_obj ekvs "competitions" comps hcomp]
                simp only [exceptOk_bind]
                by_cases htr2 : truthy comps = true
                · simp only [htr2, Bool.not_true, Bool.false_or] at hs2
                  rw [if_pos htr2]
                  cases comps with
                  | arr cxs =>
                    cases cxs with
                    | nil => simp [truthy] at htr2
                    | cons c crest =>
                      have hsplit2 := bool_and_split _ _ hs2
                      have hcobj : isObj c = true := hsplit2.1
                      have hs3 := hsplit2.2
                      cases c with
                      | obj ckvs =>
                        simp only [pyIndex0, exceptOk_bind]
                        rw [pyKeys_isObj (.obj ckvs) rfl]
                        simp only [exceptOk_bind, pyContains_obj]
                        simp only [jlookup] at hs3
                        cases hcts : List.lookup "competitors" ckvs with
                        | none =>
                          rw [hcts] at hs3
                          rw [if_neg (by simp [lookup_none_any ckvs "competitors" hcts])]
                          simp [exceptOk_bind, exceptPure, inspectReached, eventSection, competitionSection,
                            competitorSection, first0, objKeys, jlookup, hev, hcomp, hcts,
                            htr, htr2]
                        | some cts =>
                          rw [hcts] at hs3
                          rw [if_pos (by simp [lookup_some_any ckvs "competitors" cts hcts])]
                          rw [pySubscript_obj ckvs "competitors" cts hcts]
                          simp only [exceptOk_bind]
                          by_cases htr3 : truthy cts = true
                          · simp only [htr3, Bool.not_true, Bool.false_or] at hs3
                            rw [if_pos htr3]
                            cases cts with
                            | arr pxs =>
                              cases pxs with
                              | nil => simp [truthy] at htr3
                              | cons p prest =>
                                have hsplit3 := bool_and_split _ _ hs3
                                have hpobj : isObj p = true := hsplit3.1
                                have hs4 := hsplit3.2
                                cases p with
                                | obj pkvs =>
                                  simp only [pyIndex0, exceptOk_bind]
                                  rw [pyKeys_isObj (.obj pkvs) rfl]
                                  simp only [exceptOk_bind, pyContains_obj]
                                  simp only [jlookup] at hs4
                                  cases hteam : List.lookup "team" pkvs with
                                  | none =>
                                    rw [hteam] at hs4
                                    rw [if_neg (by simp [lookup_none_any pkvs "team" hteam])]
                                    simp [exceptOk_bind, exceptPure, inspectReached, eventSection, competitionSection,
                                      competitorSection, teamSection, first0, objKeys,
                                      jlookup, hev, hcomp, hcts, hteam, htr, htr2, htr3]
                                  | some team =>
                                    rw [hteam] at hs4
                                    rw [if_pos (by simp [lookup_some_any pkvs "team" team hteam])]
                                    rw [pySubscript_obj pkvs "team" team hteam]
                                    simp only [exceptOk_bind]
                                    rw [pyKeys_isObj team hs4]
                                    simp only [exceptOk_bind]
                                    simp [exceptOk_bind, exceptPure, inspectReached, eventSection, competitionSection,
                                      competitorSection, teamSection, first0, objKeys,
                                      jlookup, hev, hcomp, hcts, hteam, htr, htr2, htr3]
                                | null => simp [isObj] at hpobj
                                | bool b => simp [isObj] at hpobj
                                | num n => simp [isObj] at hpobj
                                | str s => simp [isObj] at hpobj
                                | arr a => simp [isObj] at hpobj
                            | null => simp at hs3
                            | bool b => simp at hs3
                            | num n => simp at hs3
                            | str s => simp at hs3
                            | obj o => simp at hs3
                          · have hf3 : truthy cts = false := by
                              cases ht : truthy cts with
                              | true => exact absurd ht htr3
                              | false => rfl
                            rw [if_neg (by simp [hf3])]
                            simp [exceptOk_bind, exceptPure, inspectReached, eventSection, competitionSection,
                              competitorSection, first0, objKeys, jlookup, hev, hcomp, hcts,
                              htr, htr2, hf3]
                      | null => simp [isObj] at hcobj
                      | bool b => simp [isObj] at hcobj
                      | num n => simp [isObj] at hcobj
                      | str s => simp [isObj] at hcobj
                      | arr a => simp [isObj] at hcobj
                  | null => simp at hs2
                  | bool b => simp at hs2
                  | num n => simp at hs2
                  | str s => simp at hs2
                  | obj o => simp at hs2
                · have hf2 : truthy comps = false := by
                    cases ht : truthy comps with
                    | true => exact absurd ht htr2
                    | false => rfl
                  rw [if_neg (by simp [hf2])]
                  simp [exceptOk_bind, exceptPure, inspectReached, eventSection, competitionSection, first0, objKeys,
                    jlookup, hev, hcomp, htr, hf2]
            | null => simp [isObj] at hiobj
            | bool b => simp [isObj] at hiobj
            | num n => simp [isObj] at hiobj
            | str s => simp [isObj] at hiobj
            | arr a => simp [isObj] at hiobj
        | null => simp at hs
        | bool b => simp at hs
        | num n => simp at hs
        | str s => simp at hs
        | obj o => simp at hs
      · have hf : truthy ev = false := by
          cases ht : truthy ev with
          | true => exact absurd ht htr
          | false => rfl
        rw [if_neg (by simp [hf])]
        simp [exceptOk_bind, exceptPure, inspectReached, eventSection, objKeys, jlookup, hev, hf]

/-- Witness for C7 at the shapes the claim enumerates: a competitor lacking
a `team` field (with one competitor in the competition and the event's full
descent present), on which the inspector returns normally with exactly the
reached levels. -/
theorem c7_witness :
    inspectSafe (.obj [("events", .arr [.obj [("competitions",
        .arr [.obj [("competitors", .arr [.obj [("id", .str "1")]])]])]])]) = true ∧
      inspect_data_structure (.obj [("events", .arr [.obj [("competitions",
        .arr [.obj [("competitors", .arr [.obj [("id", .str "1")]])]])]])]) =
        .ok (inspectReached (.obj [("events", .arr [.obj [("competitions",
          .arr [.obj [("competitors", .arr [.obj [("id", .str "1")]])]])]])])) :=
  ⟨rfl, c7_inspector_stops_at_absence _ rfl⟩

end Espn
